import Mathlib

/-!
Verification development for the brew-updater check-and-reconcile engine.

The Go sources are shallowly embedded:
* strings are Lean `String`s, with character-level helpers mirroring the
  ASCII behaviour of the Go standard library functions used by the code
  (`strings.TrimSpace`, `strings.EqualFold`, `strings.Split`,
  `strconv.ParseInt`/`ParseUint`);
* Go machine integers (`int`, the version-scheme tags, intervals) are `Int`
  (no arithmetic in the engine can overflow: it only adds minute counts);
* Go maps keyed by strings are functions `String → Option α`;
* instants are integer unix seconds; the RFC-3339 strings stored in
  `State.NextCheckAt` are modelled by `TimeString`: a value written by
  `time.Format` (which `time.Parse` recovers) or an arbitrary string that
  fails to parse;
* the external collaborators (brew subprocesses, the metadata API, the
  notifier) are oracles packaged in `Env`; the externally visible calls a
  run performs are accumulated in a `Trace`.
-/

namespace BrewUpdater

/-- Go map keyed by strings, denoted as a partial function. -/
def SMap (α : Type) : Type := String → Option α

def SMap.empty {α : Type} : SMap α := fun _ => none

def SMap.insert {α : Type} (m : SMap α) (k : String) (v : α) : SMap α :=
  fun q => if q = k then some v else m q

def SMap.erase {α : Type} (m : SMap α) (k : String) : SMap α :=
  fun q => if q = k then none else m q

/-- The store-under-composite-key pattern of the reconciliation loop:
insert at the composite key, then delete the stale bare-name duplicate
when the two differ. -/
def SMap.migrate {α : Type} (m : SMap α) (key name : String) (v : α) : SMap α :=
  let m1 := m.insert key v
  if key ≠ name then m1.erase name else m1

/-- The key-migration pattern of `normalizeStateKeys`: copy the
bare-name entry to the composite key unless one already exists there. -/
def SMap.copyIfAbsent {α : Type} (m : SMap α) (name key : String) : SMap α :=
  match m name, m key with
  | some v, none => m.insert key v
  | _, _ => m

/-! ### Character-level string helpers (ASCII models of the Go stdlib) -/

/-- ASCII whitespace, the model of `unicode.IsSpace` used by
`strings.TrimSpace` (space, tab, newline, vertical tab, form feed,
carriage return). -/
def isSpaceChar (c : Char) : Bool :=
  c.toNat = 32 || c.toNat = 9 || c.toNat = 10 || c.toNat = 11 ||
  c.toNat = 12 || c.toNat = 13

/-- Model of `strings.TrimSpace`. -/
def trimChars (cs : List Char) : List Char :=
  ((cs.dropWhile isSpaceChar).reverse.dropWhile isSpaceChar).reverse

/-- Model of `strings.TrimSpace` on `String`. -/
def goTrim (s : String) : String := ⟨trimChars s.data⟩

/-- Model of `strings.Split` with a one-character separator. -/
def splitOnChar (sep : Char) : List Char → List (List Char)
  | [] => [[]]
  | c :: rest =>
    let r := splitOnChar sep rest
    if c = sep then [] :: r
    else
      match r with
      | h :: t => (c :: h) :: t
      | [] => [[c]]

/-- Decimal value of a digit list (no validity check). -/
def digitsVal (cs : List Char) : Nat :=
  cs.foldl (fun a c => 10 * a + (c.toNat - 48)) 0

/-- Nonempty all-digit strings parse; used by the `strconv` models. -/
def parseDigits (cs : List Char) : Option Nat :=
  if cs = [] then none
  else if cs.all Char.isDigit then some (digitsVal cs) else none

/-- Model of `strconv.ParseUint(s, 10, 64)`: digits only, unsigned,
64-bit bound enforced (overflow is a parse error). -/
def parseUint64 (cs : List Char) : Option Nat :=
  match parseDigits cs with
  | none => none
  | some v => if v ≤ 2 ^ 64 - 1 then some v else none

/-- Model of `strconv.ParseInt(s, 10, 64)`: optional sign, digits,
64-bit bounds enforced. -/
def parseInt64 (cs : List Char) : Option Int :=
  match cs with
  | '+' :: r =>
    match parseDigits r with
    | none => none
    | some v => if v ≤ 2 ^ 63 - 1 then some (v : Int) else none
  | '-' :: r =>
    match parseDigits r with
    | none => none
    | some v => if v ≤ 2 ^ 63 then some (-(v : Int)) else none
  | _ =>
    match parseDigits cs with
    | none => none
    | some v => if v ≤ 2 ^ 63 - 1 then some (v : Int) else none

/-- Byte-wise lexicographic comparison, the model of Go `string` `<`/`>`
(ASCII code points coincide with bytes). Negative, zero, positive. -/
def lexCmp : List Char → List Char → Int
  | [], [] => 0
  | [], _ :: _ => -1
  | _ :: _, [] => 1
  | a :: as, b :: bs =>
    if a.toNat < b.toNat then -1
    else if b.toNat < a.toNat then 1
    else lexCmp as bs

/-! ### Version comparator (`internal/check`, `version.go` part) -/

/-- `strings.TrimPrefix(v, "v")` for the one-character prefix. -/
def stripV (cs : List Char) : List Char :=
  match cs with
  | c :: r => if c = 'v' then r else cs
  | [] => cs

/-- `normalizeVersion`: trim whitespace, strip one leading `"v"`, replace
underscores and commas with periods. -/
def normalizeVersion (v : String) : String :=
  let cs := trimChars v.data
  let cs := stripV cs
  let cs := cs.map fun c => if c = '_' then '.' else c
  let cs := cs.map fun c => if c = ',' then '.' else c
  ⟨cs⟩

/-- `isLatest`: `strings.EqualFold(strings.TrimSpace(v), "latest")`,
modelled for ASCII as case-insensitive equality with `"latest"`. -/
def isLatest (v : String) : Bool :=
  match trimChars v.data with
  | [c0, c1, c2, c3, c4, c5] =>
    (c0 == 'l' || c0 == 'L') && (c1 == 'a' || c1 == 'A') &&
    (c2 == 't' || c2 == 'T') && (c3 == 'e' || c3 == 'E') &&
    (c4 == 's' || c4 == 'S') && (c5 == 't' || c5 == 'T')
  | _ => false

/-- Parsed structured version, the model of `Masterminds/semver/v3`'s
`Version`: numeric major/minor/patch plus the raw prerelease and
metadata sections. -/
structure SemVer where
  major : Nat
  minor : Nat
  patch : Nat
  pre : List Char
  metadata : List Char
deriving DecidableEq

/-- Character class of prerelease/metadata identifiers: `[0-9A-Za-z-]`. -/
def isIdentChar (c : Char) : Bool := c.isDigit || c.isAlpha || c = '-'

/-- A dot-separated identifier section: nonempty identifiers of
`isIdentChar` characters, at least one identifier. -/
def validDotted (cs : List Char) : Bool :=
  (splitOnChar '.' cs).all fun part => !part.isEmpty && part.all isIdentChar

/-- Tail of the parser: prerelease and metadata sections plus the
end-of-input check, applied after the numeric core. -/
def parseSemVerTail (major minor patch : Nat) (rest : List Char) :
    Option SemVer :=
  let pre := match rest with
    | '-' :: r4 =>
      let chunk := r4.takeWhile fun c => isIdentChar c || c = '.'
      let r5 := r4.dropWhile fun c => isIdentChar c || c = '.'
      if validDotted chunk then some (chunk, r5) else none
    | _ => some ([], rest)
  match pre with
  | none => none
  | some (preSec, rest5) =>
    match rest5 with
    | [] => some ⟨major, minor, patch, preSec, []⟩
    | '+' :: r6 =>
      let chunk := r6.takeWhile fun c => isIdentChar c || c = '.'
      let r7 := r6.dropWhile fun c => isIdentChar c || c = '.'
      if validDotted chunk && r7.isEmpty then
        some ⟨major, minor, patch, preSec, chunk⟩
      else none
    | _ => none

/-- Model of `semver.NewVersion` (the lenient v3 entry point): anchored
match of `v?(\d+)(\.\d+)?(\.\d+)?(-pre)?(\+meta)?` with each numeric
segment read by `strconv.ParseUint(_, 10, 64)`; absent minor/patch
default to zero. -/
def parseSemVerChars (cs : List Char) : Option SemVer :=
  let cs := stripV cs
  let majD := cs.takeWhile Char.isDigit
  let rest := cs.dropWhile Char.isDigit
  match parseUint64 majD with
  | none => none
  | some major =>
    match rest with
    | '.' :: r2 =>
      let minD := r2.takeWhile Char.isDigit
      let rest2 := r2.dropWhile Char.isDigit
      match parseUint64 minD with
      | none => none
      | some minor =>
        match rest2 with
        | '.' :: r3 =>
          let patD := r3.takeWhile Char.isDigit
          let rest3 := r3.dropWhile Char.isDigit
          match parseUint64 patD with
          | none => none
          | some patch => parseSemVerTail major minor patch rest3
        | _ => parseSemVerTail major minor 0 rest2
    | _ => parseSemVerTail major 0 0 rest

def parseSemVer (s : String) : Option SemVer := parseSemVerChars s.data

/-- Masterminds `compareSegment`. -/
def compareSegment (a b : Nat) : Int :=
  if a < b then -1 else if a = b then 0 else 1

/-- Masterminds `comparePrePart`: equal parts tie; an empty placeholder
loses; otherwise numeric identifiers (per `strconv.ParseInt`) compare
numerically, a number is below a non-number, and two non-numbers compare
as raw strings. -/
def comparePrePart (s o : List Char) : Int :=
  if s = o then 0
  else if s = [] then (if o ≠ [] then -1 else 1)
  else if o = [] then (if s ≠ [] then 1 else -1)
  else
    match parseInt64 s, parseInt64 o with
    | none, none => if lexCmp s o > 0 then 1 else -1
    | some _, none => -1
    | none, some _ => 1
    | some si, some oi => if si > oi then 1 else -1

/-- Masterminds `comparePrerelease`'s indexed loop over the two
dot-separated identifier lists, with `""` standing in past the end. -/
def comparePreParts : List (List Char) → List (List Char) → Int
  | [], [] => 0
  | [], o :: os =>
    let d := comparePrePart [] o
    if d ≠ 0 then d else comparePreParts [] os
  | s :: ss, [] =>
    let d := comparePrePart s []
    if d ≠ 0 then d else comparePreParts ss []
  | s :: ss, o :: os =>
    let d := comparePrePart s o
    if d ≠ 0 then d else comparePreParts ss os

/-- Masterminds `Version.Compare`: major, minor, patch, then prerelease
(a release outranks any prerelease); metadata is ignored. -/
def semverCompare (v o : SemVer) : Int :=
  if compareSegment v.major o.major ≠ 0 then compareSegment v.major o.major
  else if compareSegment v.minor o.minor ≠ 0 then compareSegment v.minor o.minor
  else if compareSegment v.patch o.patch ≠ 0 then compareSegment v.patch o.patch
  else if v.pre = [] ∧ o.pre = [] then 0
  else if v.pre = [] then 1
  else if o.pre = [] then -1
  else comparePreParts (splitOnChar '.' v.pre) (splitOnChar '.' o.pre)

/-- `Version.GreaterThan`. -/
def semverGT (v o : SemVer) : Bool := semverCompare v o > 0

/-- `isOutdated` (version.go lines 50–69). -/
def isOutdated (installed latest : String) (scheme prevScheme : Int) : Bool :=
  if installed = "" ∨ latest = "" then false
  else if isLatest installed || isLatest latest then false
  else if scheme > prevScheme ∧ installed ≠ latest then true
  else
    match parseSemVer (normalizeVersion installed),
          parseSemVer (normalizeVersion latest) with
    | some iv, some lv => semverGT lv iv
    | _, _ => decide (installed ≠ latest)

/-! ### Process lock (`internal/lock`) -/

/-- The `pid|unix_timestamp` content written into a fresh lock file. -/
def lockContent (pid now : Int) : String :=
  toString pid ++ "|" ++ toString now

/-- `isStale`: malformed content (not exactly two `|`-separated parts, or
either part failing `strconv.ParseInt` after trimming), a dead owning
process, or age beyond the timeout.  `alive` abstracts the signal-0
liveness probe; instants and the timeout are unix seconds. -/
def isStale (content : String) (alive : Int → Bool) (now timeout : Int) :
    Bool :=
  match splitOnChar '|' content.data with
  | [p0, p1] =>
    match parseInt64 (trimChars p0) with
    | none => true
    | some pid =>
      match parseInt64 (trimChars p1) with
      | none => true
      | some ts =>
        if !alive pid then true else decide (now - ts > timeout)
  | _ => true

/-- `Acquire` (brew.go lines 184–206) over an abstract filesystem holding
just the lock file (`none` = absent).  `O_CREATE|O_EXCL` succeeds exactly
when the file is absent; a stale file is removed and the loop retried,
which then deterministically creates the fresh lock, so the unbounded Go
loop unrolls to two iterations.  OS failures other than "file exists" are
outside the model.  Returns the new file content on success. -/
def acquire (file : Option String) (alive : Int → Bool)
    (now myPid timeout : Int) : Except String String :=
  match file with
  | none => .ok (lockContent myPid now)
  | some content =>
    if isStale content alive now timeout then .ok (lockContent myPid now)
    else .error "lock already held"


/-! ### Data model (`internal/config`) -/

structure WatchItem where
  name : String
  type : String
  policy : String
  intervalMin : Int
  addedAt : Int
deriving DecidableEq

structure Config where
  version : Int
  tickIntervalSec : Int
  defaultPolicy : String
  notifyMethod : String
  includeAutoUpdateCask : Bool
  watchlist : List WatchItem
deriving DecidableEq

/-- `config.WatchKey`. -/
def WatchKey (name typ : String) : String :=
  if typ = "" then name else typ ++ ":" ++ name

/-- An RFC-3339 timestamp string stored in `State.NextCheckAt`: either a
value rendered by `time.Format(time.RFC3339)` on a whole-second instant
(which `time.Parse` recovers exactly), or any other string, which fails
to parse.  The Go code's extra `nextStr == ""` check is subsumed: the
empty string is an unparsable string. -/
inductive TimeString where
  | valid (t : Int)
  | invalid (raw : String)
deriving DecidableEq

/-- `time.Parse(time.RFC3339, _)`, as succeed-or-fail. -/
def parseRFC3339 : TimeString → Option Int
  | .valid t => some t
  | .invalid _ => none

/-- `t.Format(time.RFC3339)`. -/
def formatRFC3339 (t : Int) : TimeString := .valid t

/-- `config.State` (state.go); only the error ring and the per-item maps
the engine touches.  Timestamps are unix seconds. -/
structure State where
  lastCheckAt : Option Int
  lastUpdateAt : Option Int
  lastVersions : SMap String
  lastSchemes : SMap Int
  etagCache : SMap String
  lastErrors : List String
  nextCheckAt : SMap TimeString

/-- Some per-item map of State (next-check, last-version, last-scheme)
has an entry under `k`. -/
def stateHasKey (st : State) (k : String) : Prop :=
  st.nextCheckAt k ≠ none ∨ st.lastVersions k ≠ none ∨ st.lastSchemes k ≠ none

/-- `check.Options`. -/
structure Options where
  dryRun : Bool
  forceUpdate : Bool
  notifyOnly : Bool
  verbose : Bool
deriving DecidableEq

/-- `check.OutdatedItem`. -/
structure OutdatedItem where
  item : WatchItem
  installed : String
  latest : String
deriving DecidableEq

/-- `check.Result`. -/
structure Result where
  checked : Nat
  checkedNames : List String
  outdated : List OutdatedItem
  removed : List WatchItem
  errors : List String
deriving DecidableEq

/-- `check.fetchResult` (without the item, which travels alongside). -/
structure FetchResult where
  latest : String
  scheme : Int
  etag : String
  notModified : Bool
  err : Option String
deriving DecidableEq

/-- One engine-issued notification call (delivery is best-effort and
outside the model): an update/available message for one item, or a
failure message. -/
inductive Notice where
  | updated (action name installedV latestV : String)
  | failed (title msg : String)
deriving DecidableEq

/-- Is this notification a failure notification? -/
def isFailureNotice : Notice → Bool
  | .failed _ _ => true
  | _ => false

/-- The externally visible calls a run performs: the name lists passed to
`brew.UpgradeFormula` / `brew.UpgradeCask`, and every notification call. -/
structure Trace where
  upgradeFormulaCalls : List (List String)
  upgradeCaskCalls : List (List String)
  notices : List Notice
deriving DecidableEq

def Trace.empty : Trace := ⟨[], [], []⟩

/-- Deterministic oracles for the external collaborators of one run:
the metadata fetch (item and conditional-request etag to outcome), the
outcome of `brew update` (called at most once per run), the outdated
queries, the upgrade calls, and the instant of the final `time.Now()`
stamps. -/
structure Env where
  fetch : WatchItem → String → FetchResult
  brewUpdate : Except String Unit
  outdatedFormula : List String → Except String (List String)
  outdatedCask : List String → Bool → Except String (List String)
  upgradeFormula : List String → Except String Unit
  upgradeCask : List String → Bool → Except String Unit
  endNow : Int

/-- The data `check.Run` returns (its Go `error` is nil on every path the
model covers, `brew.ListInstalled` being supplied as an argument), plus
the trace of external calls. -/
structure RunOut where
  res : Result
  cfg : Config
  st : State
  trace : Trace

/-! ### Engine helpers (`internal/check`, check.go part) -/

/-- `api.URLFor` / `api.buildURL`. -/
def URLFor (item : WatchItem) : String :=
  if item.type = "cask" then
    "https://formulae.brew.sh/api/cask/" ++ item.name ++ ".json"
  else
    "https://formulae.brew.sh/api/formula/" ++ item.name ++ ".json"

/-- The item's policy, or the config default when empty (the computation
inlined in `splitByType` and `notifyUpdates`). -/
def effectivePolicy (cfg : Config) (item : WatchItem) : String :=
  if item.policy = "" then cfg.defaultPolicy else item.policy

/-- `appendError`: append to the ring, keep the last 20. -/
def appendError (st : State) (msg : String) : State :=
  let es := st.lastErrors ++ [msg]
  { st with lastErrors := if es.length > 20 then es.drop (es.length - 20) else es }

/-- `notifyFailure`'s notification call. -/
def notifyFailure (title err : String) : Notice :=
  .failed title (goTrim err)

/-- `notifyUpdates`: one notification per listed item, gated by
force-all, effective policy "notify", or the action being `"Updated"`. -/
def notifyUpdates (cfg : Config) (items : List OutdatedItem)
    (action : String) (forceAll : Bool) : List Notice :=
  items.filterMap fun item =>
    let policy := if item.item.policy = "" then cfg.defaultPolicy else item.item.policy
    if forceAll || policy == "notify" || action == "Updated" then
      some (.updated action item.item.name item.installed item.latest)
    else none

def insertSorted (s : String) : List String → List String
  | [] => [s]
  | x :: xs => if lexCmp s.data x.data < 0 then s :: x :: xs else x :: insertSorted s xs

/-- `sort.Strings`. -/
def sortStrings (l : List String) : List String := l.foldr insertSorted []

/-- `namesFromItems`. -/
def namesFromItems (items : List WatchItem) : List String :=
  sortStrings (items.map fun it => it.name)

/-- `splitByType`: keep only effective-policy-"auto" items, split cask
names from the rest, sort both name lists. -/
def splitByType (outdated : List OutdatedItem) (cfg : Config) :
    List String × List String :=
  (sortStrings (outdated.filterMap fun oi =>
      if effectivePolicy cfg oi.item ≠ "auto" then none
      else if oi.item.type = "cask" then none
      else some oi.item.name),
   sortStrings (outdated.filterMap fun oi =>
      if effectivePolicy cfg oi.item ≠ "auto" then none
      else if oi.item.type = "cask" then some oi.item.name
      else none))

/-- `filterOutdated`: keep the items whose composite key is allowed by
the re-verified formula/cask name lists. -/
def filterOutdated (items : List OutdatedItem)
    (formulas casks : List String) : List OutdatedItem :=
  if items.isEmpty then items
  else items.filter fun item =>
    let key := WatchKey item.item.name item.item.type
    (formulas.map fun n => "formula:" ++ n).contains key ||
    (casks.map fun n => "cask:" ++ n).contains key

/-- `installedVersion`: exact-kind lookup when the type is set, else
formula first, then cask. -/
def installedVersion (formulae casks : SMap String) (item : WatchItem) :
    Option (String × String) :=
  match item.type with
  | "cask" =>
    match casks item.name with
    | some v => some (v, "cask")
    | none => none
  | "formula" =>
    match formulae item.name with
    | some v => some (v, "formula")
    | none => none
  | _ =>
    match formulae item.name with
    | some v => some (v, "formula")
    | none =>
      match casks item.name with
      | some v => some (v, "cask")
      | none => none

/-- One item's key migration inside `normalizeStateKeys`: copy each
bare-name entry to the composite key unless one already exists there. -/
def normalizeStep (st : State) (item : WatchItem) : State :=
  let key := WatchKey item.name item.type
  if key = item.name then st
  else
    { st with
      nextCheckAt := st.nextCheckAt.copyIfAbsent item.name key,
      lastVersions := st.lastVersions.copyIfAbsent item.name key,
      lastSchemes := st.lastSchemes.copyIfAbsent item.name key }

/-- `normalizeStateKeys`. -/
def normalizeStateKeys (cfg : Config) (st : State) : State :=
  cfg.watchlist.foldl normalizeStep st

/-- The `watched` set built by `cleanupStateKeys`: composite keys and
bare names of the whole watchlist. -/
def watchedKeys (cfg : Config) (k : String) : Bool :=
  cfg.watchlist.any fun item => k == WatchKey item.name item.type || k == item.name

/-- `cleanupStateKeys`: delete every entry of the three per-item maps
whose key is not watched (the Go deletion loop over map keys, denoted as
domain restriction). -/
def cleanupStateKeys (cfg : Config) (st : State) : State :=
  { st with
    nextCheckAt := fun k => if watchedKeys cfg k then st.nextCheckAt k else none,
    lastVersions := fun k => if watchedKeys cfg k then st.lastVersions k else none,
    lastSchemes := fun k => if watchedKeys cfg k then st.lastSchemes k else none }

/-- The next-check lookup of `dueItems`: composite key first, bare name
only when the composite key is absent and differs from the name. -/
def recordedNext (st : State) (item : WatchItem) : Option TimeString :=
  let key := WatchKey item.name item.type
  match st.nextCheckAt key with
  | some v => some v
  | none => if key ≠ item.name then st.nextCheckAt item.name else none

/-- A zero interval is replaced by the default (5 minutes) before an item
enters the due list. -/
def applyDefaultInterval (item : WatchItem) : WatchItem :=
  if item.intervalMin = 0 then { item with intervalMin := 5 } else item

/-- The due test of `dueItems`: due when nothing is recorded, the record
fails to parse, or now is not before it. -/
def dueCondB (st : State) (now : Int) (item : WatchItem) : Bool :=
  match recordedNext st item with
  | none => true
  | some v =>
    match parseRFC3339 v with
    | none => true
    | some t => !decide (now < t)

/-- `dueItems` (check.go lines 306-331). -/
def dueItems (cfg : Config) (st : State) (now : Int) : List WatchItem :=
  cfg.watchlist.filterMap fun item0 =>
    let item := applyDefaultInterval item0
    if dueCondB st now item then some item else none


/-- One iteration of the remove-missing loop (check.go lines 119-133):
an item absent from the installed snapshot is dropped, reported removed,
and its next-check and last-version entries (both key forms) deleted; a
present item is kept with its type normalized and its installed version
recorded under the composite key. -/
def pruneStep (formulae casks : SMap String)
    (acc : List WatchItem × SMap String × List WatchItem × State)
    (item : WatchItem) :
    List WatchItem × SMap String × List WatchItem × State :=
  match acc with
  | (filtered, installed, removed, st) =>
    match installedVersion formulae casks item with
    | none =>
      let st := { st with
        nextCheckAt := (st.nextCheckAt.erase (WatchKey item.name item.type)).erase item.name,
        lastVersions := (st.lastVersions.erase (WatchKey item.name item.type)).erase item.name }
      (filtered, installed, removed ++ [item], st)
    | some (version, typ) =>
      let item := { item with type := typ }
      (filtered ++ [item], installed.insert (WatchKey item.name item.type) version,
       removed, st)

def pruneMissing (formulae casks : SMap String) (watchlist : List WatchItem)
    (st : State) : List WatchItem × SMap String × List WatchItem × State :=
  watchlist.foldl (pruneStep formulae casks) ([], SMap.empty, [], st)

/-- The state-preparation phase of `Run` (lines 110-135): key migration,
remove-missing, orphan garbage collection.  Returns the pruned config,
the prepared state, the installed-version snapshot keyed by composite
key, and the removed items. -/
def prepared (formulae casks : SMap String) (cfg : Config) (st : State) :
    Config × State × SMap String × List WatchItem :=
  let st1 := normalizeStateKeys cfg st
  match pruneMissing formulae casks cfg.watchlist st1 with
  | (filtered, installed, removed, st2) =>
    let cfg2 := { cfg with watchlist := filtered }
    (cfg2, cleanupStateKeys cfg2 st2, installed, removed)

/-- One worker call of `fetchLatest`: the fetch oracle applied to the
item and the cached etag for its URL. -/
def fetchOf (env : Env) (st : State) (item : WatchItem) : FetchResult :=
  env.fetch item ((st.etagCache (URLFor item)).getD "")

/-- The version/scheme resolution of one non-error fetch outcome
(check.go lines 155-183): not-modified results substitute the last known
version and scheme from State (composite key first, bare name fallback);
modified results persist the new etag, version and scheme under the
composite key, removing stale bare-name duplicates.  Returns the
latest/scheme pair used for the outdated decision plus the updated
state. -/
def reconcileVS (st : State) (item : WatchItem) (r : FetchResult) :
    String × Int × State :=
  let url := URLFor item
  let key := WatchKey item.name item.type
  if r.notModified then
    let latest := match st.lastVersions key with
      | some l => l
      | none =>
        match st.lastVersions item.name with
        | some l => l
        | none => r.latest
    let scheme := match st.lastSchemes key with
      | some s => s
      | none =>
        match st.lastSchemes item.name with
        | some s => s
        | none => r.scheme
    (latest, scheme, st)
  else
    let st := if r.etag ≠ "" then
        { st with etagCache := st.etagCache.insert url r.etag }
      else st
    let st := if r.latest ≠ "" then
        { st with lastVersions := st.lastVersions.migrate key item.name r.latest }
      else st
    let st := { st with lastSchemes := st.lastSchemes.migrate key item.name r.scheme }
    (r.latest, r.scheme, st)

/-- The body of the per-result reconciliation loop (check.go lines
150-193) for one fetch outcome. -/
def reconcileStep (installed : SMap String) (now : Int)
    (acc : List OutdatedItem × State) (pr : WatchItem × FetchResult) :
    List OutdatedItem × State :=
  match acc, pr with
  | (outdated, st), (item, r) =>
    match r.err with
    | some e => (outdated, appendError st (item.name ++ ": " ++ e))
    | none =>
      let key := WatchKey item.name item.type
      let prevScheme := (st.lastSchemes key).getD 0
      match reconcileVS st item r with
      | (latest, scheme, st) =>
        let installedV := (installed key).getD ""
        let outdated := if isOutdated installedV latest scheme prevScheme then
            outdated ++ [⟨item, installedV, latest⟩]
          else outdated
        let nextT := formatRFC3339 (now + 60 * item.intervalMin)
        let st := { st with nextCheckAt := st.nextCheckAt.migrate key item.name nextT }
        (outdated, st)

/-- The fetch phase plus the reconciliation loop: every due item yields
exactly one fetch outcome (the worker-pool fan-out determinized in list
order; the loop is order-insensitive for the claims proved here), folded
through `reconcileStep`. -/
def reconcileAll (env : Env) (installed : SMap String) (now : Int)
    (due : List WatchItem) (st : State) : List OutdatedItem × State :=
  (due.map fun i => (i, fetchOf env st i)).foldl (reconcileStep installed now) ([], st)

/-- `st.LastCheckAt = &now`. -/
def stampCheck (st : State) (now : Int) : State :=
  { st with lastCheckAt := some now }

/-- Append a ring message when one was produced. -/
def appendIfErr (st : State) (o : Option String) : State :=
  match o with
  | some m => appendError st m
  | none => st

/-- Record an upgrade-call failure in the ring. -/
def appendOnFail (st : State) (pre : String) (r : Except String Unit) : State :=
  match r with
  | .error e => appendError st (pre ++ e)
  | .ok _ => st

/-- The failure notification of an upgrade call, when it failed. -/
def noticeOnFail (title : String) (r : Except String Unit) : List Notice :=
  match r with
  | .error e => [notifyFailure title e]
  | .ok _ => []

/-- The formula re-verification (lines 228-234): when the candidate list
is nonempty, replace it by `brew outdated`'s answer, or keep it and
produce the ring message on error. -/
def reVerifyFormula (env : Env) (f0 : List String) :
    List String × Option String :=
  if f0.length > 0 then
    match env.outdatedFormula f0 with
    | .ok names => (names, none)
    | .error e => (f0, some ("brew outdated formula failed: " ++ e))
  else (f0, none)

/-- The cask re-verification (lines 235-241). -/
def reVerifyCask (env : Env) (c0 : List String) (greedy : Bool) :
    List String × Option String :=
  if c0.length > 0 then
    match env.outdatedCask c0 greedy with
    | .ok names => (names, none)
    | .error e => (c0, some ("brew outdated cask failed: " ++ e))
  else (c0, none)

/-- The partition/re-verify/upgrade/notify tail of `Run` (lines
227-260), reached after the index refresh questions are settled. -/
def dispatchCore (env : Env) (cfg : Config) (st : State)
    (outdated : List OutdatedItem) (res : Result) (now : Int) : RunOut :=
  let split := splitByType outdated cfg
  let fv := reVerifyFormula env split.1
  let st := appendIfErr st fv.2
  let cv := reVerifyCask env split.2 cfg.includeAutoUpdateCask
  let st := appendIfErr st cv.2
  if fv.1.isEmpty && cv.1.isEmpty then ⟨res, cfg, stampCheck st now, Trace.empty⟩
  else
    let res := { res with outdated := filterOutdated outdated fv.1 cv.1 }
    let upF := if fv.1.isEmpty then Except.ok () else env.upgradeFormula fv.1
    let st := appendOnFail st "formula upgrade failed: " upF
    let nF := noticeOnFail "formula upgrade failed" upF
    let upC := if cv.1.isEmpty then Except.ok ()
      else env.upgradeCask cv.1 cfg.includeAutoUpdateCask
    let st := appendOnFail st "cask upgrade failed: " upC
    let nC := noticeOnFail "cask upgrade failed" upC
    let st := { st with lastUpdateAt := some env.endNow, lastCheckAt := some env.endNow }
    ⟨res, cfg, st, ⟨[fv.1], [cv.1], nF ++ nC ++ notifyUpdates cfg outdated "Updated" false⟩⟩

/-- Lines 207-260 of `Run`, entered with the force-update question
settled (`updated` says whether the index was already refreshed). -/
def dispatchRest (env : Env) (cfg : Config) (st : State) (opts : Options)
    (outdated : List OutdatedItem) (res : Result) (now : Int)
    (updated : Bool) : RunOut :=
  if outdated.isEmpty then ⟨res, cfg, stampCheck st now, Trace.empty⟩
  else if opts.dryRun || opts.notifyOnly then
    ⟨res, cfg, stampCheck st now,
     ⟨[], [], notifyUpdates cfg outdated "Update available" true⟩⟩
  else if !updated && outdated.length > 0 then
    match env.brewUpdate with
    | .error e =>
      ⟨res, cfg, stampCheck (appendError st ("brew update failed: " ++ e)) now,
       ⟨[], [], [notifyFailure "brew update failed" e]⟩⟩
    | .ok _ => dispatchCore env cfg st outdated res now
  else dispatchCore env cfg st outdated res now

/-- The action-dispatch phase of `Run` (lines 196-260): the upgrade
steps of a run, from the force-update branch onward. -/
def dispatch (env : Env) (cfg : Config) (st : State) (opts : Options)
    (outdated : List OutdatedItem) (res : Result) (now : Int) : RunOut :=
  if opts.forceUpdate && !opts.dryRun && !opts.notifyOnly then
    match env.brewUpdate with
    | .error e =>
      ⟨res, cfg, stampCheck (appendError st ("brew update failed: " ++ e)) now,
       ⟨[], [], [notifyFailure "brew update failed" e]⟩⟩
    | .ok _ => dispatchRest env cfg st opts outdated res now true
  else dispatchRest env cfg st opts outdated res now false

/-- `check.Run` (check.go lines 107-261), with the installed snapshot
(`brew.ListInstalled`'s two maps) supplied and the collaborators
abstracted by `env`; `now` is the run instant. -/
def run (env : Env) (formulae casks : SMap String) (cfg : Config)
    (st : State) (opts : Options) (now : Int) : RunOut :=
  match prepared formulae casks cfg st with
  | (cfg2, st3, installed, removed) =>
    let due := dueItems cfg2 st3 now
    let res0 : Result := ⟨due.length, namesFromItems due, [], removed, []⟩
    if due.isEmpty then ⟨res0, cfg2, stampCheck st3 now, Trace.empty⟩
    else
      match reconcileAll env installed now due st3 with
      | (outdated, st4) =>
        dispatch env cfg2 st4 opts outdated { res0 with outdated := outdated } now

/-- The outdated set a run accumulates before action dispatch (the
`outdated` slice of lines 149-194), as a projection of the same stage
functions `run` is built from. -/
def runOutdated (env : Env) (formulae casks : SMap String) (cfg : Config)
    (st : State) (now : Int) : List OutdatedItem :=
  match prepared formulae casks cfg st with
  | (cfg2, st3, installed, _) =>
    (reconcileAll env installed now (dueItems cfg2 st3 now) st3).1

/-- The pruned config of a run. -/
def runCfg (formulae casks : SMap String) (cfg : Config) (st : State) :
    Config :=
  (prepared formulae casks cfg st).1


/-! ### Concrete scenarios used by witnesses and counterexamples -/

def itemFoo : WatchItem := ⟨"foo", "formula", "auto", 5, 0⟩

def itemBar : WatchItem := ⟨"bar", "formula", "auto", 5, 0⟩

/-- A watched formula with explicit policy "notify". -/
def itemNfy : WatchItem := ⟨"nfy", "formula", "notify", 5, 0⟩

def itemCk : WatchItem := ⟨"ck", "cask", "auto", 5, 0⟩

/-- Installed snapshot: formulae `foo`, `bar`, `nfy` at 1.0.0. -/
def snapFormulae : SMap String :=
  ((SMap.empty.insert "foo" "1.0.0").insert "bar" "1.0.0").insert "nfy" "1.0.0"

def snapCasks : SMap String := SMap.empty.insert "ck" "1.0.0"

def stZero : State := ⟨none, none, SMap.empty, SMap.empty, SMap.empty, [], SMap.empty⟩

def optsNone : Options := ⟨false, false, false, false⟩

/-- Every fetch reports a modified 1.1.0 at scheme 0 with no etag. -/
def fetchUp : WatchItem → String → FetchResult :=
  fun _ _ => ⟨"1.1.0", 0, "", false, none⟩

/-- Happy-path collaborators whose outdated queries echo their input. -/
def envId : Env :=
  ⟨fetchUp, .ok (), fun ns => .ok ns, fun ns _ => .ok ns,
   fun _ => .ok (), fun _ _ => .ok (), 200⟩

/-- Collaborators whose formula outdated query drops `bar` (re-verifies
only `foo`). -/
def envRV : Env :=
  ⟨fetchUp, .ok (), fun _ => .ok ["foo"], fun ns _ => .ok ns,
   fun _ => .ok (), fun _ _ => .ok (), 200⟩

/-- Collaborators whose formula outdated query fails. -/
def envQF : Env :=
  ⟨fetchUp, .ok (), fun _ => .error "boom", fun ns _ => .ok ns,
   fun _ => .ok (), fun _ _ => .ok (), 200⟩

/-- Collaborators with fetches that never answer (for runs that must
not reach the network). -/
def envIdle : Env :=
  ⟨fun _ _ => ⟨"", 0, "", false, some "unused"⟩, .ok (),
   fun ns => .ok ns, fun ns _ => .ok ns,
   fun _ => .ok (), fun _ _ => .ok (), 200⟩

def cfgFB : Config := ⟨1, 60, "auto", "terminal-notifier", true, [itemFoo, itemBar]⟩

def cfgFN : Config := ⟨1, 60, "auto", "terminal-notifier", true, [itemFoo, itemNfy]⟩

def cfgF : Config := ⟨1, 60, "auto", "terminal-notifier", true, [itemFoo]⟩

def resZero : Result := ⟨0, [], [], [], []⟩

/-- The outdated set `foo`, `bar`, both 1.0.0 to 1.1.0. -/
def outdTwo : List OutdatedItem :=
  [⟨itemFoo, "1.0.0", "1.1.0"⟩, ⟨itemBar, "1.0.0", "1.1.0"⟩]

/-- A state filed only under the bare name `foo`: next check at instant
1000, last version 1.0.0, last scheme 0. -/
def stBareFoo : State := ⟨none, none,
  SMap.empty.insert "foo" "1.0.0", SMap.empty.insert "foo" 0, SMap.empty, [],
  SMap.empty.insert "foo" (.valid 1000)⟩

/-! ### Comparator lemmas and claims -/

theorem normalizeVersion_data (v : String) :
    (normalizeVersion v).data =
      ((stripV (trimChars v.data)).map
        (fun c => if c = '_' then '.' else c)).map
        (fun c => if c = ',' then '.' else c) := rfl

theorem stripV_cons (c : Char) (r : List Char) (h : c ≠ 'v') :
    stripV (c :: r) = c :: r := by
  simp [stripV, h]

theorem parseSemVerChars_cons_nonDigit (c : Char) (rest : List Char)
    (h1 : c ≠ 'v') (h2 : c.isDigit = false) :
    parseSemVerChars (c :: rest) = none := by
  unfold parseSemVerChars
  simp only [stripV_cons c rest h1]
  simp [List.takeWhile, h2, parseUint64, parseDigits]

/-- A string that passes the `"latest"` sentinel test never parses as a
structured version after normalization: its first character is `l` or
`L`, which survives normalization and is not a digit. -/
theorem isLatest_parse_none (s : String) (h : isLatest s = true) :
    parseSemVer (normalizeVersion s) = none := by
  unfold isLatest at h
  split at h
  next c0 c1 c2 c3 c4 c5 heq =>
    simp only [Bool.and_eq_true, Bool.or_eq_true, beq_iff_eq] at h
    have hne : c0 ≠ 'v' ∧ c0.isDigit = false ∧ c0 ≠ '_' ∧ c0 ≠ ',' := by
      rcases h.1.1.1.1.1 with rfl | rfl <;>
        exact ⟨by decide, by decide, by decide, by decide⟩
    show parseSemVerChars (normalizeVersion s).data = none
    rw [normalizeVersion_data, heq]
    rw [stripV_cons c0 [c1, c2, c3, c4, c5] hne.1]
    rw [List.map_cons, List.map_cons]
    rw [show ((if c0 = '_' then '.' else c0) : Char) = c0 from by rw [if_neg hne.2.2.1]]
    rw [show ((if c0 = ',' then '.' else c0) : Char) = c0 from by rw [if_neg hne.2.2.2]]
    exact parseSemVerChars_cons_nonDigit c0 _ hne.1 hne.2.1
  next => simp at h

/-- C2 (counterexample): with a scheme bump the comparator ignores the
numeric comparison, so the claimed equivalence fails as stated: both
strings parse, the parsed latest is not greater than the parsed
installed, yet `isOutdated` returns true at `scheme = 1`,
`prev_scheme = 0`. -/
theorem isOutdated_semver_scheme_bump_cex :
    parseSemVer (normalizeVersion "1.3.0") = some ⟨1, 3, 0, [], []⟩ ∧
    parseSemVer (normalizeVersion "1.2.0") = some ⟨1, 2, 0, [], []⟩ ∧
    semverGT ⟨1, 2, 0, [], []⟩ ⟨1, 3, 0, [], []⟩ = false ∧
    isOutdated "1.3.0" "1.2.0" 1 0 = true :=
  ⟨by decide, by decide, by decide, by decide⟩

/-- C2 (amended): whenever both normalized strings parse as structured
versions and the scheme-change shortcut does not fire (no scheme bump,
or the raw strings are verbatim equal), `isOutdated` returns exactly
"latest's parsed value is strictly greater than installed's parsed
value". -/
theorem isOutdated_semver_iff (installed latest : String)
    (scheme prevScheme : Int) (iv lv : SemVer)
    (hi : parseSemVer (normalizeVersion installed) = some iv)
    (hl : parseSemVer (normalizeVersion latest) = some lv)
    (hs : scheme ≤ prevScheme ∨ installed = latest) :
    isOutdated installed latest scheme prevScheme = semverGT lv iv := by
  have hne1 : ¬ installed = "" := by
    intro he; rw [he] at hi
    rw [show parseSemVer (normalizeVersion "") = none from rfl] at hi
    cases hi
  have hne2 : ¬ latest = "" := by
    intro he; rw [he] at hl
    rw [show parseSemVer (normalizeVersion "") = none from rfl] at hl
    cases hl
  have hil : isLatest installed = false := by
    cases hq : isLatest installed with
    | false => rfl
    | true => rw [isLatest_parse_none installed hq] at hi; cases hi
  have hll : isLatest latest = false := by
    cases hq : isLatest latest with
    | false => rfl
    | true => rw [isLatest_parse_none latest hq] at hl; cases hl
  unfold isOutdated
  rw [if_neg (by push_neg; exact ⟨hne1, hne2⟩)]
  rw [if_neg (by rw [hil, hll]; simp)]
  rw [if_neg (by
    rintro ⟨hgt, hne⟩
    rcases hs with hs | hs
    · omega
    · exact hne hs)]
  rw [hi, hl]

/-- C2 witness: the claim's worked example at equal schemes. -/
theorem isOutdated_semver_iff_witness :
    isOutdated "1.2.0" "1.3.0" 0 0 = semverGT ⟨1, 3, 0, [], []⟩ ⟨1, 2, 0, [], []⟩ ∧
    isOutdated "1.3.0" "1.2.0" 0 0 = semverGT ⟨1, 2, 0, [], []⟩ ⟨1, 3, 0, [], []⟩ ∧
    semverGT ⟨1, 3, 0, [], []⟩ ⟨1, 2, 0, [], []⟩ = true ∧
    semverGT ⟨1, 2, 0, [], []⟩ ⟨1, 3, 0, [], []⟩ = false :=
  ⟨isOutdated_semver_iff "1.2.0" "1.3.0" 0 0 ⟨1, 2, 0, [], []⟩ ⟨1, 3, 0, [], []⟩
      (by decide) (by decide) (Or.inl (by decide)),
   isOutdated_semver_iff "1.3.0" "1.2.0" 0 0 ⟨1, 3, 0, [], []⟩ ⟨1, 2, 0, [], []⟩
      (by decide) (by decide) (Or.inl (by decide)),
   by decide, by decide⟩

/-- C8: for non-empty strings neither equal (case-insensitively) to the
`"latest"` sentinel, a strictly increased scheme together with any
difference between the raw strings makes `isOutdated` true, with no
numeric comparison involved (the strings are arbitrary). -/
theorem scheme_bump_shortcut (installed latest : String)
    (scheme prevScheme : Int)
    (h1 : installed ≠ "") (h2 : latest ≠ "")
    (h3 : isLatest installed = false) (h4 : isLatest latest = false)
    (h5 : prevScheme < scheme) (h6 : installed ≠ latest) :
    isOutdated installed latest scheme prevScheme = true := by
  unfold isOutdated
  rw [if_neg (by push_neg; exact ⟨h1, h2⟩)]
  rw [if_neg (by rw [h3, h4]; simp)]
  rw [if_pos ⟨h5, h6⟩]

/-- C8 witness: the claim's example, where neither string parses as a
structured version. -/
theorem scheme_bump_shortcut_witness :
    isOutdated "2021a" "2021b" 1 0 = true ∧
    parseSemVer (normalizeVersion "2021a") = none :=
  ⟨scheme_bump_shortcut "2021a" "2021b" 1 0 (by decide) (by decide)
      (by decide) (by decide) (by decide) (by decide),
   by decide⟩

/-- C10: with no scheme bump and at least one normalized string failing
to parse, `isOutdated` is plain inequality of the raw inputs, which is
symmetric in the two strings. -/
theorem fallback_string_inequality (installed latest : String)
    (scheme prevScheme : Int)
    (h1 : installed ≠ "") (h2 : latest ≠ "")
    (h3 : isLatest installed = false) (h4 : isLatest latest = false)
    (h5 : scheme ≤ prevScheme)
    (h6 : parseSemVer (normalizeVersion installed) = none ∨
          parseSemVer (normalizeVersion latest) = none) :
    isOutdated installed latest scheme prevScheme = decide (installed ≠ latest) ∧
    isOutdated installed latest scheme prevScheme =
      isOutdated latest installed scheme prevScheme := by
  have key : ∀ a b : String, a ≠ "" → b ≠ "" →
      isLatest a = false → isLatest b = false →
      (parseSemVer (normalizeVersion a) = none ∨
       parseSemVer (normalizeVersion b) = none) →
      isOutdated a b scheme prevScheme = decide (a ≠ b) := by
    intro a b ha hb hla hlb hp
    unfold isOutdated
    rw [if_neg (by push_neg; exact ⟨ha, hb⟩)]
    rw [if_neg (by rw [hla, hlb]; simp)]
    rw [if_neg (by rintro ⟨hgt, _⟩; omega)]
    rcases hq : parseSemVer (normalizeVersion a) with _ | iv <;>
      rcases hr : parseSemVer (normalizeVersion b) with _ | lv <;>
      simp_all
  refine ⟨key installed latest h1 h2 h3 h4 h6, ?_⟩
  rw [key installed latest h1 h2 h3 h4 h6,
      key latest installed h2 h1 h4 h3 (Or.symm h6)]
  simp [ne_comm]

/-- C10 witness: the claim's example, equal after normalization but
different verbatim, hence reported outdated, in both orders. -/
theorem fallback_string_inequality_witness :
    isOutdated "1.2.3.4" "v1.2.3.4" 0 0 = decide ("1.2.3.4" ≠ "v1.2.3.4") ∧
    isOutdated "1.2.3.4" "v1.2.3.4" 0 0 = isOutdated "v1.2.3.4" "1.2.3.4" 0 0 ∧
    isOutdated "1.2.3.4" "v1.2.3.4" 0 0 = true ∧
    normalizeVersion "v1.2.3.4" = normalizeVersion "1.2.3.4" :=
  ⟨(fallback_string_inequality "1.2.3.4" "v1.2.3.4" 0 0 (by decide) (by decide)
      (by decide) (by decide) (by decide) (Or.inl (by decide))).1,
   (fallback_string_inequality "1.2.3.4" "v1.2.3.4" 0 0 (by decide) (by decide)
      (by decide) (by decide) (by decide) (Or.inl (by decide))).2,
   by decide, by decide⟩

/-! ### Lock claims -/

/-- C9: an existing lock with well-formed `pid|timestamp` content, a
live owner and age within the timeout makes `Acquire` fail immediately
with "lock already held"; malformed content, a dead owner, or age beyond
the timeout makes it remove the stale file and succeed in the same call,
writing the caller's pid and the current unix time. -/
theorem acquire_spec (content : String) (alive : Int → Bool)
    (now myPid timeout pid ts : Int) (p0 p1 : List Char) :
    (splitOnChar '|' content.data = [p0, p1] →
     parseInt64 (trimChars p0) = some pid →
     parseInt64 (trimChars p1) = some ts →
     alive pid = true → now - ts ≤ timeout →
     acquire (some content) alive now myPid timeout = .error "lock already held") ∧
    ((¬ ∃ q0 q1, splitOnChar '|' content.data = [q0, q1]) →
     acquire (some content) alive now myPid timeout = .ok (lockContent myPid now)) ∧
    (splitOnChar '|' content.data = [p0, p1] →
     (parseInt64 (trimChars p0) = none ∨ parseInt64 (trimChars p1) = none) →
     acquire (some content) alive now myPid timeout = .ok (lockContent myPid now)) ∧
    (splitOnChar '|' content.data = [p0, p1] →
     parseInt64 (trimChars p0) = some pid →
     parseInt64 (trimChars p1) = some ts →
     (alive pid = false ∨ now - ts > timeout) →
     acquire (some content) alive now myPid timeout = .ok (lockContent myPid now)) := by
  have hacq : ∀ b : Bool, isStale content alive now timeout = b →
      acquire (some content) alive now myPid timeout =
        (if b then .ok (lockContent myPid now) else .error "lock already held") := by
    intro b hb
    show (if isStale content alive now timeout then
        (.ok (lockContent myPid now) : Except String String)
      else .error "lock already held") = _
    rw [hb]
  refine ⟨?_, ?_, ?_, ?_⟩
  · intro hsp hp0 hp1 hal hel
    have hst : isStale content alive now timeout = false := by
      unfold isStale
      rw [hsp]
      simp only [hp0, hp1, hal]
      simp only [Bool.not_true, Bool.false_eq_true, if_false]
      simp only [decide_eq_false_iff_not, not_lt]
      omega
    simpa using hacq false hst
  · intro hnsp
    have hst : isStale content alive now timeout = true := by
      unfold isStale
      rcases hq : splitOnChar '|' content.data with _ | ⟨q0, t⟩
      · rfl
      · rcases t with _ | ⟨q1, t2⟩
        · rfl
        · rcases t2 with _ | _
          · exact absurd ⟨q0, q1, hq⟩ hnsp
          · rfl
    simpa using hacq true hst
  · intro hsp hnp
    have hst : isStale content alive now timeout = true := by
      unfold isStale
      rw [hsp]
      rcases hnp with hnp | hnp
      · simp [hnp]
      · rcases hq : parseInt64 (trimChars p0) with _ | v
        · simp [hq]
        · simp [hq, hnp]
    simpa using hacq true hst
  · intro hsp hp0 hp1 hdead
    have hst : isStale content alive now timeout = true := by
      unfold isStale
      rw [hsp]
      simp only [hp0, hp1]
      rcases hdead with hdead | hdead
      · simp [hdead]
      · have h2 : alive pid = true ∨ alive pid = false := by
          cases alive pid
          · exact Or.inr rfl
          · exact Or.inl rfl
        rcases h2 with h2 | h2 <;> simp [h2, hdead]
    simpa using hacq true hst

/-- C9 witness: a fresh lock (live pid 123, 50 ≤ 60 seconds old) is
refused; a dead-owner lock is replaced by `7|150`. -/
theorem acquire_spec_witness :
    acquire (some "123|100") (fun p => decide (p = 123)) 150 7 60 =
      .error "lock already held" ∧
    acquire (some "999|100") (fun p => decide (p = 123)) 150 7 60 =
      .ok (lockContent 7 150) :=
  ⟨(acquire_spec "123|100" (fun p => decide (p = 123)) 150 7 60 123 100
      "123".data "100".data).1 (by decide) (by decide) (by decide)
      (by decide) (by decide),
   (acquire_spec "999|100" (fun p => decide (p = 123)) 150 7 60 999 100
      "999".data "100".data).2.2.2 (by decide) (by decide) (by decide)
      (Or.inl (by decide))⟩


/-! ### Engine lemmas -/

theorem mem_insertSorted (s a : String) (l : List String) :
    a ∈ insertSorted s l ↔ a = s ∨ a ∈ l := by
  induction l with
  | nil => simp [insertSorted]
  | cons x xs ih =>
    unfold insertSorted
    split
    · simp [List.mem_cons]
    · simp only [List.mem_cons, ih]
      tauto

theorem mem_sortStrings (a : String) (l : List String) :
    a ∈ sortStrings l ↔ a ∈ l := by
  induction l with
  | nil => simp [sortStrings]
  | cons x xs ih =>
    show a ∈ insertSorted x (sortStrings xs) ↔ _
    rw [mem_insertSorted]
    simp [ih]

/-- Names in the formula partition come from effective-policy-"auto",
non-cask outdated items. -/
theorem splitByType_formula_mem (outdated : List OutdatedItem) (cfg : Config)
    (n : String) (h : n ∈ (splitByType outdated cfg).1) :
    ∃ oi ∈ outdated, oi.item.name = n ∧
      effectivePolicy cfg oi.item = "auto" ∧ oi.item.type ≠ "cask" := by
  unfold splitByType at h
  rw [mem_sortStrings] at h
  simp only [List.mem_filterMap] at h
  obtain ⟨oi, hmem, hf⟩ := h
  by_cases h1 : effectivePolicy cfg oi.item ≠ "auto"
  · rw [if_pos h1] at hf; cases hf
  · rw [if_neg h1] at hf
    push_neg at h1
    by_cases h2 : oi.item.type = "cask"
    · rw [if_pos h2] at hf; cases hf
    · rw [if_neg h2] at hf
      exact ⟨oi, hmem, Option.some.inj hf, h1, h2⟩

/-- Names in the cask partition come from effective-policy-"auto" cask
outdated items. -/
theorem splitByType_cask_mem (outdated : List OutdatedItem) (cfg : Config)
    (n : String) (h : n ∈ (splitByType outdated cfg).2) :
    ∃ oi ∈ outdated, oi.item.name = n ∧
      effectivePolicy cfg oi.item = "auto" ∧ oi.item.type = "cask" := by
  unfold splitByType at h
  rw [mem_sortStrings] at h
  simp only [List.mem_filterMap] at h
  obtain ⟨oi, hmem, hf⟩ := h
  by_cases h1 : effectivePolicy cfg oi.item ≠ "auto"
  · rw [if_pos h1] at hf; cases hf
  · rw [if_neg h1] at hf
    push_neg at h1
    by_cases h2 : oi.item.type = "cask"
    · rw [if_pos h2] at hf
      exact ⟨oi, hmem, Option.some.inj hf, h1, h2⟩
    · rw [if_neg h2] at hf; cases hf

theorem reVerifyFormula_sub (env : Env) (f0 : List String)
    (hf : ∀ ns out, env.outdatedFormula ns = .ok out → ∀ n ∈ out, n ∈ ns) :
    ∀ n ∈ (reVerifyFormula env f0).1, n ∈ f0 := by
  intro n hn
  unfold reVerifyFormula at hn
  split at hn
  · split at hn
    next names heq => exact hf f0 names heq n hn
    next e heq => exact hn
  · exact hn

theorem reVerifyCask_sub (env : Env) (c0 : List String) (g : Bool)
    (hc : ∀ ns g out, env.outdatedCask ns g = .ok out → ∀ n ∈ out, n ∈ ns) :
    ∀ n ∈ (reVerifyCask env c0 g).1, n ∈ c0 := by
  intro n hn
  unfold reVerifyCask at hn
  split at hn
  · split at hn
    next names heq => exact hc c0 g names heq n hn
    next e heq => exact hn
  · exact hn

/-- The upgrade call lists a dispatch emits: either none at all, or
exactly one formula call and one cask call carrying the re-verified
partitions. -/
theorem dispatchCore_calls (env : Env) (cfg : Config) (st : State)
    (outdated : List OutdatedItem) (res : Result) (now : Int) :
    ((dispatchCore env cfg st outdated res now).trace.upgradeFormulaCalls = [] ∧
     (dispatchCore env cfg st outdated res now).trace.upgradeCaskCalls = []) ∨
    ((dispatchCore env cfg st outdated res now).trace.upgradeFormulaCalls =
       [(reVerifyFormula env (splitByType outdated cfg).1).1] ∧
     (dispatchCore env cfg st outdated res now).trace.upgradeCaskCalls =
       [(reVerifyCask env (splitByType outdated cfg).2 cfg.includeAutoUpdateCask).1]) := by
  unfold dispatchCore
  dsimp only
  split
  · left; exact ⟨rfl, rfl⟩
  · right
    exact ⟨rfl, rfl⟩

theorem dispatchRest_calls (env : Env) (cfg : Config) (st : State)
    (opts : Options) (outdated : List OutdatedItem) (res : Result)
    (now : Int) (updated : Bool) :
    ((dispatchRest env cfg st opts outdated res now updated).trace.upgradeFormulaCalls = [] ∧
     (dispatchRest env cfg st opts outdated res now updated).trace.upgradeCaskCalls = []) ∨
    ((dispatchRest env cfg st opts outdated res now updated).trace.upgradeFormulaCalls =
       [(reVerifyFormula env (splitByType outdated cfg).1).1] ∧
     (dispatchRest env cfg st opts outdated res now updated).trace.upgradeCaskCalls =
       [(reVerifyCask env (splitByType outdated cfg).2 cfg.includeAutoUpdateCask).1]) := by
  unfold dispatchRest
  split
  · left; exact ⟨rfl, rfl⟩
  · split
    · left; exact ⟨rfl, rfl⟩
    · split
      · split
        · left; exact ⟨rfl, rfl⟩
        · exact dispatchCore_calls env cfg st outdated res now
      · exact dispatchCore_calls env cfg st outdated res now

theorem dispatch_calls (env : Env) (cfg : Config) (st : State)
    (opts : Options) (outdated : List OutdatedItem) (res : Result)
    (now : Int) :
    ((dispatch env cfg st opts outdated res now).trace.upgradeFormulaCalls = [] ∧
     (dispatch env cfg st opts outdated res now).trace.upgradeCaskCalls = []) ∨
    ((dispatch env cfg st opts outdated res now).trace.upgradeFormulaCalls =
       [(reVerifyFormula env (splitByType outdated cfg).1).1] ∧
     (dispatch env cfg st opts outdated res now).trace.upgradeCaskCalls =
       [(reVerifyCask env (splitByType outdated cfg).2 cfg.includeAutoUpdateCask).1]) := by
  unfold dispatch
  split
  · split
    · left; exact ⟨rfl, rfl⟩
    · exact dispatchRest_calls env cfg st opts outdated res now true
  · exact dispatchRest_calls env cfg st opts outdated res now false


/-- C1: in any reconciliation run, assuming the package manager's
outdated queries answer with a subset of the names they were asked about
(their stated contract), every name passed to the formula upgrade call
is the name of an outdated item of non-cask kind whose effective policy
is "auto", and every name passed to the cask upgrade call is the name of
an outdated cask item with effective policy "auto"; in particular an
outdated item with effective policy "notify" never contributes its name
to either upgrade call, whatever the options (including force_update). -/
theorem policy_gating_run (env : Env) (formulae casks : SMap String)
    (cfg : Config) (st : State) (opts : Options) (now : Int)
    (hf : ∀ ns out, env.outdatedFormula ns = .ok out → ∀ n ∈ out, n ∈ ns)
    (hc : ∀ ns g out, env.outdatedCask ns g = .ok out → ∀ n ∈ out, n ∈ ns) :
    (∀ ns ∈ (run env formulae casks cfg st opts now).trace.upgradeFormulaCalls,
      ∀ n ∈ ns, ∃ oi ∈ runOutdated env formulae casks cfg st now,
        oi.item.name = n ∧
        effectivePolicy (runCfg formulae casks cfg st) oi.item = "auto" ∧
        oi.item.type ≠ "cask") ∧
    (∀ ns ∈ (run env formulae casks cfg st opts now).trace.upgradeCaskCalls,
      ∀ n ∈ ns, ∃ oi ∈ runOutdated env formulae casks cfg st now,
        oi.item.name = n ∧
        effectivePolicy (runCfg formulae casks cfg st) oi.item = "auto" ∧
        oi.item.type = "cask") := by
  unfold run runOutdated runCfg
  rcases hp : prepared formulae casks cfg st with ⟨cfg2, st3, installed, removed⟩
  dsimp only
  by_cases hdue : (dueItems cfg2 st3 now).isEmpty
  · rw [if_pos hdue]
    constructor <;> intro ns hns <;> simp [Trace.empty] at hns
  · rw [if_neg hdue]
    rcases hr : reconcileAll env installed now (dueItems cfg2 st3 now) st3 with
      ⟨outdated, st4⟩
    dsimp only
    constructor
    · intro ns hns n hn
      rcases dispatch_calls env cfg2 st4 opts outdated _ now with ⟨hF, _⟩ | ⟨hF, _⟩
      · rw [hF] at hns; cases hns
      · rw [hF] at hns
        rw [List.mem_singleton] at hns
        subst hns
        have hsub := reVerifyFormula_sub env (splitByType outdated cfg2).1 hf n hn
        exact splitByType_formula_mem outdated cfg2 n hsub
    · intro ns hns n hn
      rcases dispatch_calls env cfg2 st4 opts outdated _ now with ⟨_, hC⟩ | ⟨_, hC⟩
      · rw [hC] at hns; cases hns
      · rw [hC] at hns
        rw [List.mem_singleton] at hns
        subst hns
        have hsub := reVerifyCask_sub env (splitByType outdated cfg2).2
          cfg2.includeAutoUpdateCask hc n hn
        exact splitByType_cask_mem outdated cfg2 n hsub

/-- C1 witness: a run over `foo` (auto) and `nfy` (notify), both
outdated, with echoing outdated queries: the single formula upgrade call
is `["foo"]`, and the theorem produces the auto-policy witness item. -/
theorem policy_gating_run_witness :
    (run envId snapFormulae snapCasks cfgFN stZero optsNone 100).trace.upgradeFormulaCalls = [["foo"]] ∧
    (∃ oi ∈ runOutdated envId snapFormulae snapCasks cfgFN stZero 100,
      oi.item.name = "foo" ∧
      effectivePolicy (runCfg snapFormulae snapCasks cfgFN stZero) oi.item = "auto" ∧
      oi.item.type ≠ "cask") :=
  ⟨by decide,
   (policy_gating_run envId snapFormulae snapCasks cfgFN stZero optsNone 100
      (by intro ns out h n hn
          simp only [envId] at h
          cases h
          exact hn)
      (by intro ns g out h n hn
          simp only [envId] at h
          cases h
          exact hn)).1
     ["foo"] (by decide) "foo" (by decide)⟩


/-! ### Map and reconcile-step lemmas -/

theorem SMap.insert_self {α : Type} (m : SMap α) (k : String) (v : α) :
    (m.insert k v) k = some v := by
  simp [SMap.insert]

theorem SMap.insert_ne {α : Type} (m : SMap α) (k : String) (v : α)
    (q : String) (h : q ≠ k) : (m.insert k v) q = m q := by
  simp [SMap.insert, h]

theorem SMap.erase_self {α : Type} (m : SMap α) (k : String) :
    (m.erase k) k = none := by
  simp [SMap.erase]

theorem SMap.erase_ne {α : Type} (m : SMap α) (k : String) (q : String)
    (h : q ≠ k) : (m.erase k) q = m q := by
  simp [SMap.erase, h]

theorem SMap.migrate_key {α : Type} (m : SMap α) (key name : String)
    (v : α) : (m.migrate key name v) key = some v := by
  unfold SMap.migrate
  split
  next h => rw [SMap.erase_ne _ _ _ h, SMap.insert_self]
  next h => rw [SMap.insert_self]

theorem SMap.migrate_other {α : Type} (m : SMap α) (key name : String)
    (v : α) (q : String) (h1 : q ≠ key) (h2 : q ≠ name) :
    (m.migrate key name v) q = m q := by
  unfold SMap.migrate
  split
  next h => rw [SMap.erase_ne _ _ _ h2, SMap.insert_ne _ _ _ _ h1]
  next h => rw [SMap.insert_ne _ _ _ _ h1]

theorem SMap.migrate_cases {α : Type} (m : SMap α) (key name : String)
    (v : α) (q : String) :
    (m.migrate key name v) q = m q ∨ q = key ∨ (m.migrate key name v) q = none := by
  by_cases h1 : q = key
  · exact Or.inr (Or.inl h1)
  · by_cases h2 : q = name
    · subst h2
      unfold SMap.migrate
      split
      next h => exact Or.inr (Or.inr (SMap.erase_self _ _))
      next h =>
        push_neg at h
        exact absurd h.symm h1
    · exact Or.inl (SMap.migrate_other m key name v q h1 h2)

theorem appendError_maps (st : State) (m : String) :
    (appendError st m).nextCheckAt = st.nextCheckAt ∧
    (appendError st m).lastVersions = st.lastVersions ∧
    (appendError st m).lastSchemes = st.lastSchemes :=
  ⟨rfl, rfl, rfl⟩

theorem reconcileVS_next (st : State) (item : WatchItem) (r : FetchResult) :
    (reconcileVS st item r).2.2.nextCheckAt = st.nextCheckAt := by
  unfold reconcileVS
  dsimp only
  split
  · rfl
  · split <;> split <;> rfl

theorem reconcileVS_vers_cases (st : State) (item : WatchItem)
    (r : FetchResult) (k : String) :
    (reconcileVS st item r).2.2.lastVersions k = st.lastVersions k ∨
    k = WatchKey item.name item.type ∨
    (reconcileVS st item r).2.2.lastVersions k = none := by
  unfold reconcileVS
  dsimp only
  split
  · left; rfl
  · split <;> split
    · show st.lastVersions.migrate (WatchKey item.name item.type) item.name r.latest k =
          st.lastVersions k ∨ k = WatchKey item.name item.type ∨
          st.lastVersions.migrate (WatchKey item.name item.type) item.name r.latest k = none
      exact SMap.migrate_cases _ _ _ _ k
    · show st.lastVersions.migrate (WatchKey item.name item.type) item.name r.latest k =
          st.lastVersions k ∨ k = WatchKey item.name item.type ∨
          st.lastVersions.migrate (WatchKey item.name item.type) item.name r.latest k = none
      exact SMap.migrate_cases _ _ _ _ k
    · left; rfl
    · left; rfl

theorem reconcileVS_schemes_cases (st : State) (item : WatchItem)
    (r : FetchResult) (k : String) :
    (reconcileVS st item r).2.2.lastSchemes k = st.lastSchemes k ∨
    k = WatchKey item.name item.type ∨
    (reconcileVS st item r).2.2.lastSchemes k = none := by
  unfold reconcileVS
  dsimp only
  split
  · left; rfl
  · split <;> split <;>
    · show st.lastSchemes.migrate (WatchKey item.name item.type) item.name r.scheme k =
          st.lastSchemes k ∨ k = WatchKey item.name item.type ∨
          st.lastSchemes.migrate (WatchKey item.name item.type) item.name r.scheme k = none
      exact SMap.migrate_cases _ _ _ _ k

theorem reconcileStep_next_err (installed : SMap String) (now : Int)
    (outdated : List OutdatedItem) (st : State) (item : WatchItem)
    (r : FetchResult) (e : String) (herr : r.err = some e) :
    (reconcileStep installed now (outdated, st) (item, r)).2.nextCheckAt =
      st.nextCheckAt := by
  unfold reconcileStep
  dsimp only
  rw [herr]
  rfl

theorem reconcileStep_next_ok (installed : SMap String) (now : Int)
    (outdated : List OutdatedItem) (st : State) (item : WatchItem)
    (r : FetchResult) (herr : r.err = none) :
    (reconcileStep installed now (outdated, st) (item, r)).2.nextCheckAt =
      st.nextCheckAt.migrate (WatchKey item.name item.type) item.name
        (formatRFC3339 (now + 60 * item.intervalMin)) := by
  unfold reconcileStep
  dsimp only
  rw [herr]
  dsimp only
  rcases hvs : reconcileVS st item r with ⟨latest, scheme, st2⟩
  dsimp only
  have h2 : st2.nextCheckAt = st.nextCheckAt := by
    have := reconcileVS_next st item r
    rw [hvs] at this
    exact this
  rw [h2]

theorem reconcileStep_vers_cases (installed : SMap String) (now : Int)
    (outdated : List OutdatedItem) (st : State) (item : WatchItem)
    (r : FetchResult) (k : String) :
    (reconcileStep installed now (outdated, st) (item, r)).2.lastVersions k =
      st.lastVersions k ∨
    k = WatchKey item.name item.type ∨
    (reconcileStep installed now (outdated, st) (item, r)).2.lastVersions k = none := by
  unfold reconcileStep
  dsimp only
  cases herr : r.err with
  | some e => left; rfl
  | none =>
    rcases hvs : reconcileVS st item r with ⟨latest, scheme, st2⟩
    dsimp only
    have := reconcileVS_vers_cases st item r k
    rw [hvs] at this
    exact this

theorem reconcileStep_schemes_cases (installed : SMap String) (now : Int)
    (outdated : List OutdatedItem) (st : State) (item : WatchItem)
    (r : FetchResult) (k : String) :
    (reconcileStep installed now (outdated, st) (item, r)).2.lastSchemes k =
      st.lastSchemes k ∨
    k = WatchKey item.name item.type ∨
    (reconcileStep installed now (outdated, st) (item, r)).2.lastSchemes k = none := by
  unfold reconcileStep
  dsimp only
  cases herr : r.err with
  | some e => left; rfl
  | none =>
    rcases hvs : reconcileVS st item r with ⟨latest, scheme, st2⟩
    dsimp only
    have := reconcileVS_schemes_cases st item r k
    rw [hvs] at this
    exact this

theorem reconcileStep_next_cases (installed : SMap String) (now : Int)
    (outdated : List OutdatedItem) (st : State) (item : WatchItem)
    (r : FetchResult) (k : String) :
    (reconcileStep installed now (outdated, st) (item, r)).2.nextCheckAt k =
      st.nextCheckAt k ∨
    k = WatchKey item.name item.type ∨
    (reconcileStep installed now (outdated, st) (item, r)).2.nextCheckAt k = none := by
  cases herr : r.err with
  | some e => rw [reconcileStep_next_err installed now outdated st item r e herr]; left; rfl
  | none =>
    rw [reconcileStep_next_ok installed now outdated st item r herr]
    exact SMap.migrate_cases _ _ _ _ k

/-- A key carrying an entry after one reconcile step either carried one
before or is the step item's composite key. -/
theorem reconcileStep_hasKey (installed : SMap String) (now : Int)
    (outdated : List OutdatedItem) (st : State) (item : WatchItem)
    (r : FetchResult) (k : String)
    (h : stateHasKey (reconcileStep installed now (outdated, st) (item, r)).2 k) :
    stateHasKey st k ∨ k = WatchKey item.name item.type := by
  by_cases hk : k = WatchKey item.name item.type
  · exact Or.inr hk
  · left
    rcases h with h | h | h
    · rcases reconcileStep_next_cases installed now outdated st item r k with hc | hc | hc
      · rw [hc] at h; exact Or.inl h
      · exact absurd hc hk
      · exact absurd hc h
    · rcases reconcileStep_vers_cases installed now outdated st item r k with hc | hc | hc
      · rw [hc] at h; exact Or.inr (Or.inl h)
      · exact absurd hc hk
      · exact absurd hc h
    · rcases reconcileStep_schemes_cases installed now outdated st item r k with hc | hc | hc
      · rw [hc] at h; exact Or.inr (Or.inr h)
      · exact absurd hc hk
      · exact absurd hc h


theorem reconcile_fold_hasKey (installed : SMap String) (now : Int)
    (results : List (WatchItem × FetchResult)) :
    ∀ (acc : List OutdatedItem × State) (k : String),
      stateHasKey (results.foldl (reconcileStep installed now) acc).2 k →
      stateHasKey acc.2 k ∨ ∃ p ∈ results, k = WatchKey p.1.name p.1.type := by
  induction results with
  | nil => intro acc k h; exact Or.inl h
  | cons p ps ih =>
    intro acc k h
    rw [List.foldl_cons] at h
    rcases ih (reconcileStep installed now acc p) k h with h1 | ⟨q, hq, hk⟩
    · rcases acc with ⟨outdated, st⟩
      rcases p with ⟨item, r⟩
      rcases reconcileStep_hasKey installed now outdated st item r k h1 with h2 | h2
      · exact Or.inl h2
      · exact Or.inr ⟨(item, r), List.mem_cons_self _ _, h2⟩
    · exact Or.inr ⟨q, List.mem_cons_of_mem _ hq, hk⟩

theorem reconcile_fold_next_preserve (installed : SMap String) (now : Int)
    (results : List (WatchItem × FetchResult)) :
    ∀ (acc : List OutdatedItem × State) (k : String),
      (∀ p ∈ results, k ≠ WatchKey p.1.name p.1.type ∧ k ≠ p.1.name) →
      (results.foldl (reconcileStep installed now) acc).2.nextCheckAt k =
        acc.2.nextCheckAt k := by
  induction results with
  | nil => intro acc k h; rfl
  | cons p ps ih =>
    intro acc k h
    rw [List.foldl_cons]
    rw [ih _ k (fun q hq => h q (List.mem_cons_of_mem _ hq))]
    rcases acc with ⟨outdated, st⟩
    rcases p with ⟨item, r⟩
    obtain ⟨hk1, hk2⟩ := h (item, r) (List.mem_cons_self _ _)
    cases herr : r.err with
    | some e =>
      rw [reconcileStep_next_err installed now outdated st item r e herr]
    | none =>
      rw [reconcileStep_next_ok installed now outdated st item r herr]
      exact SMap.migrate_other _ _ _ _ k hk1 hk2

/-- Last-write characterization: a successfully fetched item whose
composite key no other result writes or erases ends the loop with its
next check recorded at now plus its interval. -/
theorem reconcile_fold_next_key (installed : SMap String) (now : Int)
    (results : List (WatchItem × FetchResult)) :
    ∀ (acc : List OutdatedItem × State) (item : WatchItem) (r : FetchResult),
      (item, r) ∈ results → r.err = none →
      (∀ p ∈ results,
        (WatchKey p.1.name p.1.type = WatchKey item.name item.type → p = (item, r)) ∧
        p.1.name ≠ WatchKey item.name item.type) →
      (results.foldl (reconcileStep installed now) acc).2.nextCheckAt
          (WatchKey item.name item.type) =
        some (formatRFC3339 (now + 60 * item.intervalMin)) := by
  induction results with
  | nil => intro acc item r hmem; cases hmem
  | cons p ps ih =>
    intro acc item r hmem herr hnd
    rw [List.foldl_cons]
    by_cases hin : (item, r) ∈ ps
    · exact ih _ item r hin herr (fun q hq => hnd q (List.mem_cons_of_mem _ hq))
    · have hp : p = (item, r) := by
        rcases List.mem_cons.mp hmem with h | h
        · exact h.symm
        · exact absurd h hin
      subst hp
      rw [reconcile_fold_next_preserve installed now ps _ _ ?_]
      · rcases acc with ⟨outdated, st⟩
        rw [reconcileStep_next_ok installed now outdated st item r herr]
        exact SMap.migrate_key _ _ _ _
      · intro q hq
        have hq' := hnd q (List.mem_cons_of_mem _ hq)
        constructor
        · intro hcontra
          exact hin ((hq'.1 hcontra.symm) ▸ hq)
        · exact fun hcontra => hq'.2 hcontra.symm

theorem watchedKeys_exists (cfg : Config) (k : String)
    (h : watchedKeys cfg k = true) :
    ∃ item ∈ cfg.watchlist, k = WatchKey item.name item.type ∨ k = item.name := by
  unfold watchedKeys at h
  rw [List.any_eq_true] at h
  obtain ⟨item, hmem, hk⟩ := h
  rw [Bool.or_eq_true, beq_iff_eq, beq_iff_eq] at hk
  exact ⟨item, hmem, hk⟩

theorem cleanup_hasKey (cfg : Config) (st : State) (k : String)
    (h : stateHasKey (cleanupStateKeys cfg st) k) :
    watchedKeys cfg k = true := by
  by_cases hw : watchedKeys cfg k = true
  · exact hw
  · exfalso
    have hw' : watchedKeys cfg k = false := by
      cases hq : watchedKeys cfg k
      · rfl
      · exact absurd hq hw
    unfold stateHasKey cleanupStateKeys at h
    dsimp only at h
    rcases h with h | h | h <;> rw [hw'] at h <;> simp at h

theorem applyDefault_name (a : WatchItem) :
    (applyDefaultInterval a).name = a.name := by
  unfold applyDefaultInterval; split <;> rfl

theorem applyDefault_type (a : WatchItem) :
    (applyDefaultInterval a).type = a.type := by
  unfold applyDefaultInterval; split <;> rfl

theorem applyDefault_key (a : WatchItem) :
    WatchKey (applyDefaultInterval a).name (applyDefaultInterval a).type =
      WatchKey a.name a.type := by
  rw [applyDefault_name, applyDefault_type]

theorem dueItems_mem_decomp (cfg : Config) (st : State) (now : Int)
    (item : WatchItem) (h : item ∈ dueItems cfg st now) :
    ∃ a ∈ cfg.watchlist, applyDefaultInterval a = item := by
  unfold dueItems at h
  rw [List.mem_filterMap] at h
  obtain ⟨a, ha, hfa⟩ := h
  dsimp only at hfa
  split at hfa
  · exact ⟨a, ha, Option.some.inj hfa⟩
  · cases hfa

theorem appendIfErr_maps (st : State) (o : Option String) :
    (appendIfErr st o).nextCheckAt = st.nextCheckAt ∧
    (appendIfErr st o).lastVersions = st.lastVersions ∧
    (appendIfErr st o).lastSchemes = st.lastSchemes := by
  cases o <;> exact ⟨rfl, rfl, rfl⟩

theorem appendOnFail_maps (st : State) (pre : String) (r : Except String Unit) :
    (appendOnFail st pre r).nextCheckAt = st.nextCheckAt ∧
    (appendOnFail st pre r).lastVersions = st.lastVersions ∧
    (appendOnFail st pre r).lastSchemes = st.lastSchemes := by
  cases r <;> exact ⟨rfl, rfl, rfl⟩

theorem dispatchCore_state_maps (env : Env) (cfg : Config) (st : State)
    (outdated : List OutdatedItem) (res : Result) (now : Int) :
    (dispatchCore env cfg st outdated res now).st.nextCheckAt = st.nextCheckAt ∧
    (dispatchCore env cfg st outdated res now).st.lastVersions = st.lastVersions ∧
    (dispatchCore env cfg st outdated res now).st.lastSchemes = st.lastSchemes := by
  unfold dispatchCore
  dsimp only
  split
  · refine ⟨?_, ?_, ?_⟩
    · show (appendIfErr (appendIfErr st _) _).nextCheckAt = st.nextCheckAt
      rw [(appendIfErr_maps _ _).1, (appendIfErr_maps _ _).1]
    · show (appendIfErr (appendIfErr st _) _).lastVersions = st.lastVersions
      rw [(appendIfErr_maps _ _).2.1, (appendIfErr_maps _ _).2.1]
    · show (appendIfErr (appendIfErr st _) _).lastSchemes = st.lastSchemes
      rw [(appendIfErr_maps _ _).2.2, (appendIfErr_maps _ _).2.2]
  · refine ⟨?_, ?_, ?_⟩
    · show (appendOnFail (appendOnFail (appendIfErr (appendIfErr st _) _) _ _) _ _).nextCheckAt =
        st.nextCheckAt
      rw [(appendOnFail_maps _ _ _).1, (appendOnFail_maps _ _ _).1,
        (appendIfErr_maps _ _).1, (appendIfErr_maps _ _).1]
    · show (appendOnFail (appendOnFail (appendIfErr (appendIfErr st _) _) _ _) _ _).lastVersions =
        st.lastVersions
      rw [(appendOnFail_maps _ _ _).2.1, (appendOnFail_maps _ _ _).2.1,
        (appendIfErr_maps _ _).2.1, (appendIfErr_maps _ _).2.1]
    · show (appendOnFail (appendOnFail (appendIfErr (appendIfErr st _) _) _ _) _ _).lastSchemes =
        st.lastSchemes
      rw [(appendOnFail_maps _ _ _).2.2, (appendOnFail_maps _ _ _).2.2,
        (appendIfErr_maps _ _).2.2, (appendIfErr_maps _ _).2.2]

theorem dispatchRest_state_maps (env : Env) (cfg : Config) (st : State)
    (opts : Options) (outdated : List OutdatedItem) (res : Result) (now : Int)
    (updated : Bool) :
    (dispatchRest env cfg st opts outdated res now updated).st.nextCheckAt = st.nextCheckAt ∧
    (dispatchRest env cfg st opts outdated res now updated).st.lastVersions = st.lastVersions ∧
    (dispatchRest env cfg st opts outdated res now updated).st.lastSchemes = st.lastSchemes := by
  unfold dispatchRest
  split
  · exact ⟨rfl, rfl, rfl⟩
  · split
    · exact ⟨rfl, rfl, rfl⟩
    · split
      · split
        · exact ⟨rfl, rfl, rfl⟩
        · exact dispatchCore_state_maps env cfg st outdated res now
      · exact dispatchCore_state_maps env cfg st outdated res now

theorem dispatch_state_maps (env : Env) (cfg : Config) (st : State)
    (opts : Options) (outdated : List OutdatedItem) (res : Result) (now : Int) :
    (dispatch env cfg st opts outdated res now).st.nextCheckAt = st.nextCheckAt ∧
    (dispatch env cfg st opts outdated res now).st.lastVersions = st.lastVersions ∧
    (dispatch env cfg st opts outdated res now).st.lastSchemes = st.lastSchemes := by
  unfold dispatch
  split
  · split
    · exact ⟨rfl, rfl, rfl⟩
    · exact dispatchRest_state_maps env cfg st opts outdated res now true
  · exact dispatchRest_state_maps env cfg st opts outdated res now false

theorem dispatchCore_cfg (env : Env) (cfg : Config) (st : State)
    (outdated : List OutdatedItem) (res : Result) (now : Int) :
    (dispatchCore env cfg st outdated res now).cfg = cfg := by
  unfold dispatchCore
  dsimp only
  split <;> rfl

theorem dispatchRest_cfg (env : Env) (cfg : Config) (st : State)
    (opts : Options) (outdated : List OutdatedItem) (res : Result) (now : Int)
    (updated : Bool) :
    (dispatchRest env cfg st opts outdated res now updated).cfg = cfg := by
  unfold dispatchRest
  split
  · rfl
  · split
    · rfl
    · split
      · split
        · rfl
        · exact dispatchCore_cfg env cfg st outdated res now
      · exact dispatchCore_cfg env cfg st outdated res now

theorem dispatch_cfg (env : Env) (cfg : Config) (st : State)
    (opts : Options) (outdated : List OutdatedItem) (res : Result) (now : Int) :
    (dispatch env cfg st opts outdated res now).cfg = cfg := by
  unfold dispatch
  split
  · split
    · rfl
    · exact dispatchRest_cfg env cfg st opts outdated res now true
  · exact dispatchRest_cfg env cfg st opts outdated res now false

/-- C7: after one reconciliation run, every key carrying an entry in any
of the three per-item State maps corresponds, as composite key or bare
name, to a WatchItem of the surviving watchlist; contrapositively an
entry for a package no longer watched is absent. -/
theorem orphan_gc_invariant (env : Env) (formulae casks : SMap String)
    (cfg : Config) (st : State) (opts : Options) (now : Int) (k : String)
    (h : stateHasKey (run env formulae casks cfg st opts now).st k) :
    ∃ item ∈ (run env formulae casks cfg st opts now).cfg.watchlist,
      k = WatchKey item.name item.type ∨ k = item.name := by
  unfold run prepared at h ⊢
  dsimp only at h ⊢
  set pm := pruneMissing formulae casks cfg.watchlist (normalizeStateKeys cfg st) with hpm
  clear_value pm
  rcases pm with ⟨filtered, installed, removed, st2⟩
  dsimp only at h ⊢
  by_cases hdue :
      (dueItems { cfg with watchlist := filtered }
        (cleanupStateKeys { cfg with watchlist := filtered } st2) now).isEmpty
  · rw [if_pos hdue] at h ⊢
    have h3 : stateHasKey (cleanupStateKeys { cfg with watchlist := filtered } st2) k := h
    exact watchedKeys_exists _ k (cleanup_hasKey _ st2 k h3)
  · rw [if_neg hdue] at h ⊢
    set ra := reconcileAll env installed now
        (dueItems { cfg with watchlist := filtered }
          (cleanupStateKeys { cfg with watchlist := filtered } st2) now)
        (cleanupStateKeys { cfg with watchlist := filtered } st2) with hra
    clear_value ra
    rcases ra with ⟨outdated, st4⟩
    dsimp only at h ⊢
    rw [dispatch_cfg]
    obtain ⟨hm1, hm2, hm3⟩ := dispatch_state_maps env _ st4 opts outdated _ now
    have h4 : stateHasKey st4 k := by
      rcases h with h | h | h
      · rw [hm1] at h; exact Or.inl h
      · rw [hm2] at h; exact Or.inr (Or.inl h)
      · rw [hm3] at h; exact Or.inr (Or.inr h)
    have hst4 : st4 = (List.foldl (reconcileStep installed now)
        ([], cleanupStateKeys { cfg with watchlist := filtered } st2)
        ((dueItems { cfg with watchlist := filtered }
            (cleanupStateKeys { cfg with watchlist := filtered } st2) now).map
          (fun i => (i, fetchOf env (cleanupStateKeys { cfg with watchlist := filtered } st2) i)))).2 := by
      have heq : (outdated, st4) = reconcileAll env installed now
          (dueItems { cfg with watchlist := filtered }
            (cleanupStateKeys { cfg with watchlist := filtered } st2) now)
          (cleanupStateKeys { cfg with watchlist := filtered } st2) := hra
      unfold reconcileAll at heq
      exact congrArg Prod.snd heq
    rw [hst4] at h4
    rcases reconcile_fold_hasKey installed now _ _ k h4 with h5 | ⟨p, hp, hk⟩
    · exact watchedKeys_exists _ k (cleanup_hasKey _ st2 k h5)
    · rw [List.mem_map] at hp
      obtain ⟨i, hi, hpi⟩ := hp
      obtain ⟨a, ha, haa⟩ := dueItems_mem_decomp _ _ _ i hi
      refine ⟨a, ha, Or.inl ?_⟩
      rw [hk, ← hpi]
      dsimp only
      rw [← haa, applyDefault_key]

/-- C7 witness: in a concrete run, the key `formula:foo` carries entries
and indeed belongs to the surviving watch item `foo`. -/
theorem orphan_gc_invariant_witness :
    ∃ item ∈ (run envId snapFormulae snapCasks cfgF stZero optsNone 100).cfg.watchlist,
      "formula:foo" = WatchKey item.name item.type ∨ "formula:foo" = item.name :=
  orphan_gc_invariant envId snapFormulae snapCasks cfgF stZero optsNone 100
    "formula:foo" (Or.inl (by decide))


/-! ### Dispatch-path lemmas for the failure-handling and notification
claims -/

theorem mem_appendError (st : State) (msg : String) :
    msg ∈ (appendError st msg).lastErrors := by
  unfold appendError
  dsimp only
  split
  next hlen =>
    have hk : (st.lastErrors ++ [msg]).length - 20 ≤ st.lastErrors.length := by
      rw [List.length_append]
      simp
    rw [List.drop_append_of_le_length hk]
    exact List.mem_append_right _ (List.mem_singleton.mpr rfl)
  next =>
    exact List.mem_append_right _ (List.mem_singleton.mpr rfl)

theorem notifyUpdates_no_failures (cfg : Config) (items : List OutdatedItem)
    (action : String) (forceAll : Bool) :
    (notifyUpdates cfg items action forceAll).filter isFailureNotice = [] := by
  rw [List.filter_eq_nil_iff]
  intro n hn
  unfold notifyUpdates at hn
  rw [List.mem_filterMap] at hn
  obtain ⟨oi, _, hoi⟩ := hn
  dsimp only at hoi
  split at hoi
  all_goals split at hoi
  all_goals cases hoi
  all_goals simp [isFailureNotice]

theorem notifyUpdates_updated_mem (cfg : Config) (items : List OutdatedItem)
    (oi : OutdatedItem) (h : oi ∈ items) :
    Notice.updated "Updated" oi.item.name oi.installed oi.latest ∈
      notifyUpdates cfg items "Updated" false := by
  unfold notifyUpdates
  rw [List.mem_filterMap]
  refine ⟨oi, h, ?_⟩
  dsimp only
  rw [if_pos (by simp)]

theorem reVerifyFormula_err (env : Env) (f0 : List String) (e : String)
    (h : env.outdatedFormula f0 = .error e) (hne : f0 ≠ []) :
    reVerifyFormula env f0 = (f0, some ("brew outdated formula failed: " ++ e)) := by
  unfold reVerifyFormula
  rw [if_pos (List.length_pos.mpr hne), h]

theorem reVerifyCask_none (env : Env) (c0 : List String) (g : Bool)
    (hcq : ∀ ns g, ∃ out, env.outdatedCask ns g = .ok out) :
    (reVerifyCask env c0 g).2 = none := by
  unfold reVerifyCask
  split
  · obtain ⟨out, hout⟩ := hcq c0 g
    rw [hout]
  · rfl

theorem isEmpty_false_of_ne {α : Type} (l : List α) (h : l ≠ []) :
    l.isEmpty = false := by
  cases l with
  | nil => exact absurd rfl h
  | cons a as => rfl

/-- Under "no dry-run, no notify-only, non-empty outdated set, index
refresh succeeds", the action dispatch reaches the partition/upgrade
tail unchanged. -/
theorem dispatch_reaches_core (env : Env) (cfg : Config) (st : State)
    (opts : Options) (outdated : List OutdatedItem) (res : Result) (now : Int)
    (hdry : opts.dryRun = false) (hno : opts.notifyOnly = false)
    (hne : outdated ≠ []) (hup : env.brewUpdate = Except.ok ()) :
    dispatch env cfg st opts outdated res now =
      dispatchCore env cfg st outdated res now := by
  have hie : outdated.isEmpty = false := isEmpty_false_of_ne outdated hne
  have hlen : outdated.length > 0 := List.length_pos.mpr hne
  unfold dispatch dispatchRest
  rw [hdry, hno, hup, hie]
  cases hfu : opts.forceUpdate <;>
    simp [hlen, hie]


theorem appendIfErr_none (st : State) : appendIfErr st none = st := rfl

theorem appendIfErr_some (st : State) (m : String) :
    appendIfErr st (some m) = appendError st m := rfl

theorem appendOnFail_ok (st : State) (pre : String) :
    appendOnFail st pre (Except.ok ()) = st := rfl

theorem appendOnFail_err (st : State) (pre e : String) :
    appendOnFail st pre (.error e) = appendError st (pre ++ e) := rfl

theorem noticeOnFail_ok (t : String) : noticeOnFail t (Except.ok ()) = [] := rfl

theorem noticeOnFail_err (t e : String) :
    noticeOnFail t (.error e) = [notifyFailure t e] := rfl

/-- C5 (counterexample): in a run where the package-manager
re-verification drops `bar` (only `foo` is confirmed outdated), the
Result is narrowed to `foo` alone, yet the "Updated" notification is
still sent for `bar` — contradicting "for exactly those outdated items
that survived the re-verification filter". -/
theorem updated_notification_cex :
    (run envRV snapFormulae snapCasks cfgFB stZero optsNone 100).res.outdated =
      [⟨itemFoo, "1.0.0", "1.1.0"⟩] ∧
    Notice.updated "Updated" "bar" "1.0.0" "1.1.0" ∈
      (run envRV snapFormulae snapCasks cfgFB stZero optsNone 100).trace.notices ∧
    (run envRV snapFormulae snapCasks cfgFB stZero optsNone 100).trace.upgradeFormulaCalls =
      [["foo"]] :=
  ⟨by decide, by decide, by decide⟩

/-- C5 (amended): on the upgrade path (not dry-run, not notify-only,
non-empty outdated set, successful index refresh, partitions not both
empty after re-verification), last_update_at and last_check_at are
stamped, the Result's outdated list is narrowed to the survivors of the
re-verification filter, and an "Updated" notification is sent for every
item of the run's outdated set — regardless of its policy and regardless
of whether it survived the filter. -/
theorem updated_notification_amended (env : Env) (cfg : Config) (st : State)
    (opts : Options) (outdated : List OutdatedItem) (res : Result) (now : Int)
    (hdry : opts.dryRun = false) (hno : opts.notifyOnly = false)
    (hne : outdated ≠ [])
    (hup : env.brewUpdate = Except.ok ())
    (hfc : ¬((reVerifyFormula env (splitByType outdated cfg).1).1 = [] ∧
             (reVerifyCask env (splitByType outdated cfg).2
               cfg.includeAutoUpdateCask).1 = [])) :
    (dispatch env cfg st opts outdated res now).st.lastUpdateAt = some env.endNow ∧
    (dispatch env cfg st opts outdated res now).st.lastCheckAt = some env.endNow ∧
    (dispatch env cfg st opts outdated res now).res.outdated =
      filterOutdated outdated
        (reVerifyFormula env (splitByType outdated cfg).1).1
        (reVerifyCask env (splitByType outdated cfg).2 cfg.includeAutoUpdateCask).1 ∧
    ∀ oi ∈ outdated,
      Notice.updated "Updated" oi.item.name oi.installed oi.latest ∈
        (dispatch env cfg st opts outdated res now).trace.notices := by
  rw [dispatch_reaches_core env cfg st opts outdated res now hdry hno hne hup]
  have hcond : ((reVerifyFormula env (splitByType outdated cfg).1).1.isEmpty &&
      (reVerifyCask env (splitByType outdated cfg).2
        cfg.includeAutoUpdateCask).1.isEmpty) = false := by
    rcases hF : (reVerifyFormula env (splitByType outdated cfg).1).1 with _ | ⟨a, as⟩
    · rcases hC : (reVerifyCask env (splitByType outdated cfg).2
          cfg.includeAutoUpdateCask).1 with _ | ⟨b, bs⟩
      · exact absurd ⟨hF, hC⟩ hfc
      · rfl
    · rfl
  unfold dispatchCore
  dsimp only
  rw [hcond, if_neg (by simp)]
  refine ⟨rfl, rfl, rfl, ?_⟩
  intro oi hoi
  exact List.mem_append_right _ (notifyUpdates_updated_mem cfg outdated oi hoi)

/-- C5 witness: the amended theorem applied to the two-item outdated set
with a re-verification that keeps only `foo`: `bar` is still notified. -/
theorem updated_notification_amended_witness :
    Notice.updated "Updated" "bar" "1.0.0" "1.1.0" ∈
      (dispatch envRV cfgFB stZero optsNone outdTwo resZero 100).trace.notices :=
  (updated_notification_amended envRV cfgFB stZero optsNone outdTwo resZero 100
      rfl rfl (by decide) rfl (by decide)).2.2.2
    ⟨itemBar, "1.0.0", "1.1.0"⟩ (by decide)

/-- C4 (counterexample): an outdated-query failure is recorded in the
ring but triggers no failure notification, and the upgrade step is not
short-circuited — the policy-filtered list is passed to the upgrade
call as-is.  This contradicts the claim that every package-manager
failure is both notified and short-circuits the remaining upgrade
steps. -/
theorem pm_failure_cex :
    (run envQF snapFormulae snapCasks cfgFB stZero optsNone 100).st.lastErrors =
      ["brew outdated formula failed: boom"] ∧
    ((run envQF snapFormulae snapCasks cfgFB stZero optsNone 100).trace.notices.filter
        isFailureNotice) = [] ∧
    (run envQF snapFormulae snapCasks cfgFB stZero optsNone 100).trace.upgradeFormulaCalls =
      [["bar", "foo"]] :=
  ⟨by decide, by decide, by decide⟩

/-- With a non-empty outdated set and neither dry-run nor notify-only,
a failing `brew update` makes the dispatch return immediately: error
recorded, failure notified, check stamped, no upgrade activity. -/
theorem dispatch_update_fail (env : Env) (cfg : Config) (st : State)
    (opts : Options) (outdated : List OutdatedItem) (res : Result) (now : Int)
    (e : String) (hdry : opts.dryRun = false) (hno : opts.notifyOnly = false)
    (hne : outdated ≠ []) (he : env.brewUpdate = .error e) :
    dispatch env cfg st opts outdated res now =
      ⟨res, cfg, stampCheck (appendError st ("brew update failed: " ++ e)) now,
       ⟨[], [], [notifyFailure "brew update failed" e]⟩⟩ := by
  have hie := isEmpty_false_of_ne outdated hne
  have hlen := List.length_pos.mpr hne
  unfold dispatch dispatchRest
  rw [hdry, hno, he, hie]
  cases hfu : opts.forceUpdate <;> simp [hlen]

/-- C4 (amended): on the action-dispatch phase of a run (non-empty
outdated set, not dry-run, not notify-only): an index-refresh (`brew
update`) failure is recorded, triggers a failure notification,
short-circuits every upgrade step and returns with the bookkeeping
state kept; an outdated-query failure is only recorded — no
notification — and the policy-filtered list is passed on to the upgrade
call unfiltered; an upgrade-call failure is recorded and notified but
does not prevent the other partition's upgrade call or the final
timestamp stamping. -/
theorem pm_failure_handling (env : Env) (cfg : Config) (st : State)
    (opts : Options) (outdated : List OutdatedItem) (res : Result) (now : Int)
    (hdry : opts.dryRun = false) (hno : opts.notifyOnly = false)
    (hne : outdated ≠ []) :
    (∀ e, env.brewUpdate = .error e →
      (dispatch env cfg st opts outdated res now).st.lastErrors =
        (appendError st ("brew update failed: " ++ e)).lastErrors ∧
      (dispatch env cfg st opts outdated res now).trace =
        ⟨[], [], [notifyFailure "brew update failed" e]⟩ ∧
      (dispatch env cfg st opts outdated res now).st.lastCheckAt = some now ∧
      (dispatch env cfg st opts outdated res now).st.nextCheckAt = st.nextCheckAt) ∧
    (∀ e, env.brewUpdate = Except.ok () →
      env.outdatedFormula (splitByType outdated cfg).1 = .error e →
      (splitByType outdated cfg).1 ≠ [] →
      (∀ ns g, ∃ out, env.outdatedCask ns g = .ok out) →
      (∀ ns, env.upgradeFormula ns = .ok ()) →
      (∀ ns g, env.upgradeCask ns g = .ok ()) →
      ("brew outdated formula failed: " ++ e) ∈
        (dispatch env cfg st opts outdated res now).st.lastErrors ∧
      (dispatch env cfg st opts outdated res now).trace.upgradeFormulaCalls =
        [(splitByType outdated cfg).1] ∧
      ((dispatch env cfg st opts outdated res now).trace.notices.filter
        isFailureNotice) = []) ∧
    (∀ e, env.brewUpdate = Except.ok () →
      (reVerifyFormula env (splitByType outdated cfg).1).1 ≠ [] →
      env.upgradeFormula (reVerifyFormula env (splitByType outdated cfg).1).1 =
        .error e →
      (∀ ns g, env.upgradeCask ns g = .ok ()) →
      ("formula upgrade failed: " ++ e) ∈
        (dispatch env cfg st opts outdated res now).st.lastErrors ∧
      notifyFailure "formula upgrade failed" e ∈
        (dispatch env cfg st opts outdated res now).trace.notices ∧
      (dispatch env cfg st opts outdated res now).trace.upgradeCaskCalls =
        [(reVerifyCask env (splitByType outdated cfg).2
            cfg.includeAutoUpdateCask).1] ∧
      (dispatch env cfg st opts outdated res now).st.lastUpdateAt =
        some env.endNow) := by
  have hie : outdated.isEmpty = false := isEmpty_false_of_ne outdated hne
  have hlen : outdated.length > 0 := List.length_pos.mpr hne
  refine ⟨?_, ?_, ?_⟩
  · intro e he
    rw [dispatch_update_fail env cfg st opts outdated res now e hdry hno hne he]
    exact ⟨rfl, rfl, rfl, rfl⟩
  · intro e hup hqf hf0 hcq hupf hupc
    rw [dispatch_reaches_core env cfg st opts outdated res now hdry hno hne hup]
    unfold dispatchCore
    dsimp only
    rw [reVerifyFormula_err env _ e hqf hf0]
    dsimp only
    rw [reVerifyCask_none env _ _ hcq, appendIfErr_some, appendIfErr_none]
    rw [isEmpty_false_of_ne _ hf0]
    rw [if_neg (by simp)]
    dsimp only
    rw [if_neg (by simp [isEmpty_false_of_ne _ hf0])]
    rw [hupf (splitByType outdated cfg).1, appendOnFail_ok, noticeOnFail_ok]
    have hupC : (if (reVerifyCask env (splitByType outdated cfg).2
          cfg.includeAutoUpdateCask).1.isEmpty = true then Except.ok ()
        else env.upgradeCask (reVerifyCask env (splitByType outdated cfg).2
          cfg.includeAutoUpdateCask).1 cfg.includeAutoUpdateCask) = Except.ok () := by
      split
      · rfl
      · exact hupc _ _
    rw [hupC, appendOnFail_ok, noticeOnFail_ok]
    refine ⟨mem_appendError st _, rfl, ?_⟩
    simpa using notifyUpdates_no_failures cfg outdated "Updated" false
  · intro e hup hfne hupferr hupc
    rw [dispatch_reaches_core env cfg st opts outdated res now hdry hno hne hup]
    unfold dispatchCore
    dsimp only
    have hcond : ((reVerifyFormula env (splitByType outdated cfg).1).1.isEmpty &&
        (reVerifyCask env (splitByType outdated cfg).2
          cfg.includeAutoUpdateCask).1.isEmpty) = false := by
      rw [isEmpty_false_of_ne _ hfne]
      rfl
    rw [hcond, if_neg (by simp)]
    dsimp only
    rw [if_neg (by simp [isEmpty_false_of_ne _ hfne])]
    rw [hupferr, appendOnFail_err, noticeOnFail_err]
    have hupC : (if (reVerifyCask env (splitByType outdated cfg).2
          cfg.includeAutoUpdateCask).1.isEmpty = true then Except.ok ()
        else env.upgradeCask (reVerifyCask env (splitByType outdated cfg).2
          cfg.includeAutoUpdateCask).1 cfg.includeAutoUpdateCask) = Except.ok () := by
      split
      · rfl
      · exact hupc _ _
    rw [hupC, appendOnFail_ok, noticeOnFail_ok]
    exact ⟨mem_appendError _ _, List.mem_append_left _
        (List.mem_append_left _ (List.mem_singleton.mpr rfl)), rfl, rfl⟩

/-- C4 witness: the outdated-query-failure part of the amended claim
applied to a concrete dispatch over `foo` and `bar`. -/
theorem pm_failure_handling_witness :
    ("brew outdated formula failed: boom") ∈
      (dispatch envQF cfgFB stZero optsNone outdTwo resZero 100).st.lastErrors ∧
    (dispatch envQF cfgFB stZero optsNone outdTwo resZero 100).trace.upgradeFormulaCalls =
      [(splitByType outdTwo cfgFB).1] ∧
    ((dispatch envQF cfgFB stZero optsNone outdTwo resZero 100).trace.notices.filter
      isFailureNotice) = [] :=
  (pm_failure_handling envQF cfgFB stZero optsNone outdTwo resZero 100
      rfl rfl (by decide)).2.1 "boom" rfl rfl (by decide)
    (fun ns g => ⟨ns, rfl⟩) (fun ns => rfl) (fun ns g => rfl)


/-! ### Due-set lemmas and claim -/

theorem dueCondB_congr (st : State) (now : Int) (a b : WatchItem)
    (hn : a.name = b.name) (ht : a.type = b.type) :
    dueCondB st now a = dueCondB st now b := by
  unfold dueCondB recordedNext
  rw [hn, ht]

/-- Membership in the due set is exactly the due condition, for the
interval-defaulted image of a watched item. -/
theorem dueItems_mem_iff (cfg : Config) (st : State) (now : Int)
    (item : WatchItem) (h : item ∈ cfg.watchlist) :
    (applyDefaultInterval item ∈ dueItems cfg st now) ↔
      dueCondB st now item = true := by
  constructor
  · intro hin
    unfold dueItems at hin
    rw [List.mem_filterMap] at hin
    obtain ⟨a, ha, hfa⟩ := hin
    dsimp only at hfa
    split at hfa
    next hcond =>
      have heq := Option.some.inj hfa
      have hn : a.name = item.name := by
        have := congrArg WatchItem.name heq
        rwa [applyDefault_name, applyDefault_name] at this
      have ht : a.type = item.type := by
        have := congrArg WatchItem.type heq
        rwa [applyDefault_type, applyDefault_type] at this
      have h1 : dueCondB st now (applyDefaultInterval a) = true := hcond
      rw [dueCondB_congr st now (applyDefaultInterval a) item
        (by rw [applyDefault_name]; exact hn)
        (by rw [applyDefault_type]; exact ht)] at h1
      exact h1
    next => cases hfa
  · intro hcond
    unfold dueItems
    rw [List.mem_filterMap]
    refine ⟨item, h, ?_⟩
    dsimp only
    rw [if_pos ?_]
    rw [dueCondB_congr st now (applyDefaultInterval item) item
      (applyDefault_name item) (applyDefault_type item)]
    exact hcond

/-- C3: (1) an item of the watchlist is in the computed due set iff it
has no recorded next-check time (composite key, bare-name fallback), or
the recorded time fails to parse, or the current instant is not before
it; (2) after a run in which a due item's fetch succeeds (and, as
load-time normalization guarantees, no other due item shares or shadows
its composite key), its recorded next-check time is the run instant
plus its interval in minutes, and the item is not due again before that
instant. -/
theorem due_spec_and_reschedule :
    (∀ (cfg : Config) (st : State) (now : Int) (item : WatchItem),
      item ∈ cfg.watchlist →
      ((applyDefaultInterval item ∈ dueItems cfg st now) ↔
        dueCondB st now item = true)) ∧
    (∀ (env : Env) (formulae casks : SMap String) (cfg : Config) (st : State)
      (opts : Options) (now : Int) (item : WatchItem),
      item ∈ dueItems (prepared formulae casks cfg st).1
        (prepared formulae casks cfg st).2.1 now →
      (fetchOf env (prepared formulae casks cfg st).2.1 item).err = none →
      (∀ q ∈ dueItems (prepared formulae casks cfg st).1
          (prepared formulae casks cfg st).2.1 now,
        (WatchKey q.name q.type = WatchKey item.name item.type → q = item) ∧
        q.name ≠ WatchKey item.name item.type) →
      (run env formulae casks cfg st opts now).st.nextCheckAt
          (WatchKey item.name item.type) =
        some (formatRFC3339 (now + 60 * item.intervalMin)) ∧
      ∀ t : Int, t < now + 60 * item.intervalMin →
        item ∉ dueItems (run env formulae casks cfg st opts now).cfg
          (run env formulae casks cfg st opts now).st t) := by
  constructor
  · exact fun cfg st now item h => dueItems_mem_iff cfg st now item h
  · intro env formulae casks cfg st opts now item hdue herr huniq
    unfold run
    unfold prepared at hdue herr huniq ⊢
    dsimp only at hdue herr huniq ⊢
    set pm := pruneMissing formulae casks cfg.watchlist (normalizeStateKeys cfg st)
      with hpm
    clear_value pm
    rcases pm with ⟨filtered, installed, removed, st2⟩
    dsimp only at hdue herr huniq ⊢
    set st3 := cleanupStateKeys { cfg with watchlist := filtered } st2 with hst3
    set due := dueItems { cfg with watchlist := filtered } st3 now with hdueDef
    have hdueNE : due.isEmpty = false :=
      isEmpty_false_of_ne due (List.ne_nil_of_mem hdue)
    rw [hdueNE, if_neg (by simp)]
    set ra := reconcileAll env installed now due st3 with hra
    clear_value ra
    rcases ra with ⟨outdated, st4⟩
    dsimp only
    obtain ⟨hm1, _, _⟩ := dispatch_state_maps env { cfg with watchlist := filtered }
      st4 opts outdated _ now
    have hst4 : st4 = (List.foldl (reconcileStep installed now) ([], st3)
        (due.map (fun i => (i, fetchOf env st3 i)))).2 := by
      have heq : (outdated, st4) = reconcileAll env installed now due st3 := hra
      unfold reconcileAll at heq
      exact congrArg Prod.snd heq
    have hkey : (dispatch env { cfg with watchlist := filtered } st4 opts outdated
        { checked := due.length, checkedNames := namesFromItems due,
          outdated := outdated, removed := removed, errors := [] } now).st.nextCheckAt
          (WatchKey item.name item.type) =
        some (formatRFC3339 (now + 60 * item.intervalMin)) := by
      rw [hm1, hst4]
      apply reconcile_fold_next_key installed now _ _ item (fetchOf env st3 item)
      · exact List.mem_map_of_mem _ hdue
      · exact herr
      · intro p hp
        rw [List.mem_map] at hp
        obtain ⟨q, hq, hpq⟩ := hp
        obtain ⟨hu1, hu2⟩ := huniq q hq
        constructor
        · intro hk
          rw [← hpq] at hk ⊢
          dsimp only at hk ⊢
          rw [hu1 hk]
        · rw [← hpq]
          exact hu2
    refine ⟨hkey, ?_⟩
    intro t ht hmem
    rw [dispatch_cfg] at hmem
    obtain ⟨a, ha, haa⟩ := dueItems_mem_decomp _ _ _ item hmem
    have hkeyA : WatchKey a.name a.type = WatchKey item.name item.type := by
      rw [← haa, applyDefault_key]
    rw [← haa] at hmem
    have hcond := (dueItems_mem_iff _ _ t a ha).mp hmem
    unfold dueCondB recordedNext at hcond
    dsimp only at hcond
    rw [hkeyA, hkey] at hcond
    dsimp only [parseRFC3339, formatRFC3339] at hcond
    simp only [Bool.not_eq_true', decide_eq_false_iff_not] at hcond
    exact hcond ht

/-- C3 witness: a single watched formula `foo` with empty state is due,
its rescheduled next check is the run instant plus five minutes, and it
is not due again at an earlier instant. -/
theorem due_spec_and_reschedule_witness :
    ((applyDefaultInterval itemFoo ∈ dueItems cfgF stZero 100) ↔
      dueCondB stZero 100 itemFoo = true) ∧
    (run envId snapFormulae snapCasks cfgF stZero optsNone 100).st.nextCheckAt
      "formula:foo" = some (.valid 400) ∧
    itemFoo ∉ dueItems (run envId snapFormulae snapCasks cfgF stZero optsNone 100).cfg
      (run envId snapFormulae snapCasks cfgF stZero optsNone 100).st 200 := by
  refine ⟨due_spec_and_reschedule.1 cfgF stZero 100 itemFoo (by decide), ?_, ?_⟩
  · exact (due_spec_and_reschedule.2 envId snapFormulae snapCasks cfgF stZero
      optsNone 100 itemFoo (by decide) (by decide) (by decide)).1
  · exact (due_spec_and_reschedule.2 envId snapFormulae snapCasks cfgF stZero
      optsNone 100 itemFoo (by decide) (by decide) (by decide)).2 200 (by decide)


/-! ### Key-migration lemmas and claim -/

theorem Option.or_or_cancel {α : Type} (x y : Option α) :
    (x.or y).or y = x.or y := by
  cases x <;> cases y <;> rfl

theorem SMap.copyIfAbsent_key {α : Type} (m : SMap α) (name key : String) :
    (m.copyIfAbsent name key) key = (m key).or (m name) := by
  unfold SMap.copyIfAbsent
  rcases hn : m name with _ | v <;> rcases hk : m key with _ | w <;> dsimp only
  · rw [hk]; simp
  · rw [hk]; simp
  · rw [SMap.insert_self]; simp
  · rw [hk]; simp

theorem SMap.copyIfAbsent_other {α : Type} (m : SMap α) (name key q : String)
    (hq : q ≠ key) : (m.copyIfAbsent name key) q = m q := by
  unfold SMap.copyIfAbsent
  rcases hn : m name with _ | v <;> rcases hk : m key with _ | w <;> dsimp only
  exact SMap.insert_ne _ _ _ _ hq

theorem normalizeStep_other (st : State) (b : WatchItem) (k : String)
    (hk : k ≠ WatchKey b.name b.type) :
    (normalizeStep st b).nextCheckAt k = st.nextCheckAt k ∧
    (normalizeStep st b).lastVersions k = st.lastVersions k ∧
    (normalizeStep st b).lastSchemes k = st.lastSchemes k := by
  unfold normalizeStep
  dsimp only
  split
  · exact ⟨rfl, rfl, rfl⟩
  · exact ⟨SMap.copyIfAbsent_other _ _ _ _ hk, SMap.copyIfAbsent_other _ _ _ _ hk,
      SMap.copyIfAbsent_other _ _ _ _ hk⟩

theorem normalizeStep_key_or (st : State) (b : WatchItem) :
    (normalizeStep st b).nextCheckAt (WatchKey b.name b.type) =
      ((st.nextCheckAt (WatchKey b.name b.type)).or (st.nextCheckAt b.name)) ∧
    (normalizeStep st b).lastVersions (WatchKey b.name b.type) =
      ((st.lastVersions (WatchKey b.name b.type)).or (st.lastVersions b.name)) ∧
    (normalizeStep st b).lastSchemes (WatchKey b.name b.type) =
      ((st.lastSchemes (WatchKey b.name b.type)).or (st.lastSchemes b.name)) := by
  unfold normalizeStep
  dsimp only
  split
  next hkn =>
    refine ⟨?_, ?_, ?_⟩
    · rw [hkn]; cases st.nextCheckAt b.name <;> rfl
    · rw [hkn]; cases st.lastVersions b.name <;> rfl
    · rw [hkn]; cases st.lastSchemes b.name <;> rfl
  next hkn =>
    exact ⟨SMap.copyIfAbsent_key _ _ _, SMap.copyIfAbsent_key _ _ _,
      SMap.copyIfAbsent_key _ _ _⟩

theorem normalize_fold_other (l : List WatchItem) :
    ∀ (st : State) (k : String), (∀ b ∈ l, k ≠ WatchKey b.name b.type) →
      ((l.foldl normalizeStep st).nextCheckAt k = st.nextCheckAt k ∧
       (l.foldl normalizeStep st).lastVersions k = st.lastVersions k ∧
       (l.foldl normalizeStep st).lastSchemes k = st.lastSchemes k) := by
  induction l with
  | nil => intro st k h; exact ⟨rfl, rfl, rfl⟩
  | cons b bs ih =>
    intro st k h
    rw [List.foldl_cons]
    obtain ⟨i1, i2, i3⟩ := ih (normalizeStep st b) k
      (fun q hq => h q (List.mem_cons_of_mem _ hq))
    obtain ⟨s1, s2, s3⟩ := normalizeStep_other st b k (h b (List.mem_cons_self _ _))
    exact ⟨i1.trans s1, i2.trans s2, i3.trans s3⟩

theorem normalize_fold_key (l : List WatchItem) :
    ∀ (st : State) (item : WatchItem), item ∈ l →
      (∀ b ∈ l, b ≠ item →
        WatchKey b.name b.type ≠ WatchKey item.name item.type) →
      (∀ b ∈ l, WatchKey b.name b.type ≠ item.name) →
      ((l.foldl normalizeStep st).nextCheckAt (WatchKey item.name item.type) =
        ((st.nextCheckAt (WatchKey item.name item.type)).or (st.nextCheckAt item.name)) ∧
       (l.foldl normalizeStep st).lastVersions (WatchKey item.name item.type) =
        ((st.lastVersions (WatchKey item.name item.type)).or (st.lastVersions item.name)) ∧
       (l.foldl normalizeStep st).lastSchemes (WatchKey item.name item.type) =
        ((st.lastSchemes (WatchKey item.name item.type)).or (st.lastSchemes item.name))) := by
  induction l with
  | nil => intro st item hmem; cases hmem
  | cons b bs ih =>
    intro st item hmem h1 h2
    rw [List.foldl_cons]
    by_cases hbi : b = item
    · subst hbi
      obtain ⟨k1, k2, k3⟩ := normalizeStep_key_or st b
      obtain ⟨n1, n2, n3⟩ := normalizeStep_other st b b.name
        (fun hcontra => h2 b (List.mem_cons_self _ _) hcontra.symm)
      by_cases hin : b ∈ bs
      · obtain ⟨j1, j2, j3⟩ := ih (normalizeStep st b) b hin
          (fun q hq hqi => h1 q (List.mem_cons_of_mem _ hq) hqi)
          (fun q hq => h2 q (List.mem_cons_of_mem _ hq))
        refine ⟨?_, ?_, ?_⟩
        · rw [j1, k1, n1, Option.or_or_cancel]
        · rw [j2, k2, n2, Option.or_or_cancel]
        · rw [j3, k3, n3, Option.or_or_cancel]
      · obtain ⟨j1, j2, j3⟩ := normalize_fold_other bs (normalizeStep st b)
          (WatchKey b.name b.type)
          (fun q hq hcontra => by
            have hqb : q ≠ b := fun hqq => hin (hqq ▸ hq)
            exact h1 q (List.mem_cons_of_mem _ hq) hqb hcontra.symm)
        exact ⟨j1.trans k1, j2.trans k2, j3.trans k3⟩
    · obtain ⟨s1, s2, s3⟩ := normalizeStep_other st b (WatchKey item.name item.type)
        (fun hcontra => h1 b (List.mem_cons_self _ _) hbi hcontra.symm)
      obtain ⟨t1, t2, t3⟩ := normalizeStep_other st b item.name
        (fun hcontra => h2 b (List.mem_cons_self _ _) hcontra.symm)
      have hmem' : item ∈ bs := by
        rcases List.mem_cons.mp hmem with h | h
        · exact absurd h.symm hbi
        · exact h
      obtain ⟨j1, j2, j3⟩ := ih (normalizeStep st b) item hmem'
        (fun q hq hqi => h1 q (List.mem_cons_of_mem _ hq) hqi)
        (fun q hq => h2 q (List.mem_cons_of_mem _ hq))
      refine ⟨?_, ?_, ?_⟩
      · rw [j1, s1, t1]
      · rw [j2, s2, t2]
      · rw [j3, s3, t3]

/-- C6 (counterexample): with a State filed only under the bare name
`foo` (next check in the future) and a Config item carrying the formula
kind, one full reconciliation pass leaves `foo` in the watchlist,
creates the composite entries with the prior bare values — and the
bare-name entries are still present, contradicting "the bare-name
entries for surviving items are removed". -/
theorem key_migration_cex :
    (run envIdle (SMap.empty.insert "foo" "1.0.0") SMap.empty cfgF stBareFoo
      optsNone 0).cfg.watchlist = [itemFoo] ∧
    (run envIdle (SMap.empty.insert "foo" "1.0.0") SMap.empty cfgF stBareFoo
      optsNone 0).st.nextCheckAt "formula:foo" = some (.valid 1000) ∧
    (run envIdle (SMap.empty.insert "foo" "1.0.0") SMap.empty cfgF stBareFoo
      optsNone 0).st.nextCheckAt "foo" = some (.valid 1000) ∧
    (run envIdle (SMap.empty.insert "foo" "1.0.0") SMap.empty cfgF stBareFoo
      optsNone 0).st.lastVersions "foo" = some "1.0.0" :=
  ⟨by decide, by decide, by decide, by decide⟩

/-- C6 (amended): for a watched item whose keys do not collide with the
other items' (as load-time deduplication guarantees), the key-migration
step of the pass gives the composite-key entry of each per-item map the
previously present composite value if any — never overwriting — and the
prior bare-name value otherwise, while leaving the bare-name entries in
place; a reconciliation pass does not generally remove the bare-name
entries of surviving items (they disappear later only when the item was
due and successfully fetched). -/
theorem key_migration_amended (cfg : Config) (st : State) (item : WatchItem)
    (hmem : item ∈ cfg.watchlist)
    (h1 : ∀ b ∈ cfg.watchlist, b ≠ item →
      WatchKey b.name b.type ≠ WatchKey item.name item.type)
    (h2 : ∀ b ∈ cfg.watchlist, WatchKey b.name b.type ≠ item.name) :
    ((normalizeStateKeys cfg st).nextCheckAt (WatchKey item.name item.type) =
      ((st.nextCheckAt (WatchKey item.name item.type)).or (st.nextCheckAt item.name)) ∧
     (normalizeStateKeys cfg st).lastVersions (WatchKey item.name item.type) =
      ((st.lastVersions (WatchKey item.name item.type)).or (st.lastVersions item.name)) ∧
     (normalizeStateKeys cfg st).lastSchemes (WatchKey item.name item.type) =
      ((st.lastSchemes (WatchKey item.name item.type)).or (st.lastSchemes item.name))) ∧
    ((normalizeStateKeys cfg st).nextCheckAt item.name = st.nextCheckAt item.name ∧
     (normalizeStateKeys cfg st).lastVersions item.name = st.lastVersions item.name ∧
     (normalizeStateKeys cfg st).lastSchemes item.name = st.lastSchemes item.name) := by
  constructor
  · exact normalize_fold_key cfg.watchlist st item hmem h1 h2
  · exact normalize_fold_other cfg.watchlist st item.name
      (fun b hb => fun hcontra => h2 b hb hcontra.symm)

/-- C6 witness: migrating the bare-name-only state of `foo` creates the
composite entries with the prior bare values and keeps the bare
entries. -/
theorem key_migration_amended_witness :
    (normalizeStateKeys cfgF stBareFoo).nextCheckAt "formula:foo" =
      some (.valid 1000) ∧
    (normalizeStateKeys cfgF stBareFoo).lastVersions "formula:foo" =
      some "1.0.0" ∧
    (normalizeStateKeys cfgF stBareFoo).nextCheckAt "foo" = some (.valid 1000) := by
  obtain ⟨⟨a1, a2, a3⟩, ⟨b1, b2, b3⟩⟩ :=
    key_migration_amended cfgF stBareFoo itemFoo (by decide) (by decide) (by decide)
  exact ⟨by rw [show ("formula:foo" : String) =
        WatchKey itemFoo.name itemFoo.type from rfl] at *; exact a1.trans (by decide),
    by rw [show ("formula:foo" : String) =
        WatchKey itemFoo.name itemFoo.type from rfl] at *; exact a2.trans (by decide),
    b1.trans (by decide)⟩

end BrewUpdater
